import Mathlib

/-!
Verification of the miditk-smf Standard MIDI File codec.

Byte strings are modelled as `List Nat` (each element one byte value);
machine integers are `Nat` with explicit masking where the source masks.
The Python source modules embedded here are `miditk/smf/converters.py`,
`miditk/smf/parser.py`, `miditk/smf/api.py`, `miditk/smf/writer.py` and
`miditk/smf/sequence.py`.  The module `miditk/common/constants.py` is not
part of the provided sources; the status-byte and meta-type constants it
defines are fixed from the specification's on-disk format description
(values noted at each use site).
-/

namespace Miditk

/-! ### converters.py -/

/-- `converters.read_varlen` inner loop: `sum = (sum << 7) + (byte & 0x7F)`,
breaking after the first byte whose bit 7 is clear (`if not 0x80 & byte: break`). -/
def read_varlen_go (sum : Nat) : List Nat → Nat
  | [] => sum
  | byte :: rest =>
    if 0x80 &&& byte = 0 then (sum <<< 7) + (byte &&& 0x7F)
    else read_varlen_go ((sum <<< 7) + (byte &&& 0x7F)) rest

/-- `converters.read_varlen`: convert variable length data to an integer,
using only the bytes up to and including the first one with bit 7 clear. -/
def read_varlen (value : List Nat) : Nat := read_varlen_go 0 value

/-- `converters.sizeof_varlen`: number of bytes an integer needs in
variable-length format. -/
def sizeof_varlen (value : Nat) : Nat :=
  if value ≤ 127 then 1
  else if value ≤ 16383 then 2
  else if value ≤ 2097151 then 3
  else 4

/-- `converters.write_varlen`: convert an integer to variable-length format.
The source emits, for `i` from `nbytes` down to `1`, the byte
`((value >> ((i - 1) * 7)) | 0x80) & (0xFF if i > 1 else 0x7F)`;
here `j = i - 1` runs over `(List.range nbytes).reverse`. -/
def write_varlen (value : Nat) : List Nat :=
  let nbytes := sizeof_varlen value
  if nbytes = 1 then [value]
  else (List.range nbytes).reverse.map fun j =>
    ((value >>> (j * 7)) ||| 0x80) &&& (if j + 1 > 1 then 0xFF else 0x7F)

/-- `converters.read_bew`: read a byte string as a big-endian word.  The
source dispatches on the length (1 → `ord`, 2 → `>H`, otherwise `>L`, which
demands exactly 4 bytes); lengths it would crash on give `none`. -/
def read_bew (value : List Nat) : Option Nat :=
  match value with
  | [a] => some a
  | [a, b] => some (a * 256 + b)
  | [a, b, c, d] => some (((a * 256 + b) * 256 + c) * 256 + d)
  | _ => none

/-- `converters.write_bew`: write an integer as big-endian bytes of the
given length (1, 2 or otherwise 4, as `struct.pack` with `>H`/`>L`). -/
def write_bew (value : Nat) (length : Nat) : List Nat :=
  if length = 1 then [value]
  else if length = 2 then [value / 256 % 256, value % 256]
  else [value / 16777216 % 256, value / 65536 % 256, value / 256 % 256, value % 256]

/-! ### sequence.py : `MidiSequence` filtered views

Events stored in a `MidiSequence` carry the attributes used by the view
methods: `track`, `time` (a float in the source, a rational here),
`channel` (`None` for non-channel events) and `meta_type` (`None` for
non-meta events). -/

structure SeqEvent where
  type : Nat
  track : Nat
  time : ℚ
  meta_type : Option Nat
  channel : Option Nat
  data : List Nat
  deriving DecidableEq, Repr

/-- Python truthiness of an `Option Nat` attribute: `None` and `0` are falsy. -/
def truthy : Option Nat → Bool
  | none => false
  | some n => n != 0

/-- The sort key `attrgetter('track', 'time')` as a total preorder
(lexicographic on track then time), as used by `sorted`. -/
def byTrackTime (a b : SeqEvent) : Bool :=
  a.track < b.track || (a.track == b.track && decide (a.time ≤ b.time))

/-- `track is None or event.track == track`. -/
def matchesTrack (track : Option Nat) (e : SeqEvent) : Bool :=
  match track with
  | none => true
  | some t => e.track == t

/-- `MidiSequence.channel_message_events`: iterate events sorted by
`(track, time)` and yield those with `event.channel` truthy and a matching
track. -/
def channel_message_events (s : List SeqEvent) (track : Option Nat) : List SeqEvent :=
  (s.mergeSort byTrackTime).filter fun e => truthy e.channel && matchesTrack track e

/-- `MidiSequence.meta_events`: iterate events sorted by `(track, time)` and
yield those with `event.meta_type` truthy and a matching track. -/
def meta_events (s : List SeqEvent) (track : Option Nat) : List SeqEvent :=
  (s.mergeSort byTrackTime).filter fun e => truthy e.meta_type && matchesTrack track e

/-! ### miditk/common/constants.py

Modelled from the spec: `miditk/common/constants.py` is not among the
provided sources; the values below are the MIDI status bytes and meta-event
type numbers fixed by the spec's on-disk format section and by the comments
in `api.py` (`TEMPO = 0x51`, `TIME_SIGNATURE = 0x58`, …).  `MONO_PRESSURE`
is this library's synonym for channel (mono) pressure `0xD0`, the same
value as `CHANNEL_PRESSURE`: the spec's correctness note says the writer's
poly-pressure path emits `MONO_PRESSURE` and that this is the wrong status
byte, the correct one being `0xA0` — so `MONO_PRESSURE` is not `0xA0`. -/

def NOTE_OFF : Nat := 0x80
def NOTE_ON : Nat := 0x90
def POLYPHONIC_PRESSURE : Nat := 0xA0
def MONO_PRESSURE : Nat := 0xD0
def CONTROLLER_CHANGE : Nat := 0xB0
def PROGRAM_CHANGE : Nat := 0xC0
def CHANNEL_PRESSURE : Nat := 0xD0
def PITCH_BEND : Nat := 0xE0
def SYSTEM_EXCLUSIVE : Nat := 0xF0
def MTC : Nat := 0xF1
def SONG_POSITION_POINTER : Nat := 0xF2
def SONG_SELECT : Nat := 0xF3
def END_OF_EXCLUSIVE : Nat := 0xF7
def ESCAPE_SEQUENCE : Nat := 0xF7
def META_EVENT : Nat := 0xFF
def SEQUENCE_NUMBER : Nat := 0x00
def TEXT : Nat := 0x01
def COPYRIGHT : Nat := 0x02
def SEQUENCE_NAME : Nat := 0x03
def INSTRUMENT_NAME : Nat := 0x04
def LYRIC : Nat := 0x05
def MARKER : Nat := 0x06
def CUEPOINT : Nat := 0x07
def PROGRAM_NAME : Nat := 0x08
def DEVICE_NAME : Nat := 0x09
def MIDI_CH_PREFIX : Nat := 0x20
def MIDI_PORT : Nat := 0x21
def END_OF_TRACK : Nat := 0x2F
def TEMPO : Nat := 0x51
def SMTP_OFFSET : Nat := 0x54
def TIME_SIGNATURE : Nat := 0x58
def KEY_SIGNATURE : Nat := 0x59
def SEQUENCER_SPECIFIC : Nat := 0x7F

/-- `TRACK_HEADER`: the ASCII bytes of `'MTrk'`. -/
def TRACK_HEADER : List Nat := [0x4D, 0x54, 0x72, 0x6B]

/-- The ASCII bytes of `'MThd'`. -/
def FILE_HEADER : List Nat := [0x4D, 0x54, 0x68, 0x64]

/-! ### parser.py : `MidiEvent` -/

/-- `parser.MidiEvent`: the event container the parser fills in and passes
to handler callbacks.  Defaults as in `MidiEvent.__init__`. -/
structure MidiEvent where
  type : Nat := META_EVENT
  track : Nat := 0
  meta_type : Option Nat := none
  data_size : Nat := 0
  data : List Nat := []
  channel : Option Nat := none
  deriving DecidableEq, Repr

/-! ### parser.py : `MidiFileParser`

The parser is embedded as a function from a seekable byte stream to the
list of handler callbacks it dispatches (the *trace*), in `Except` because
the source can raise (`ParseError`, `EOFError`, `struct.error` from short
reads, `TypeError` from `ord(b'')`, `IndexError` from `data[-1]`).  Lenient
mode's `log.warning` calls are recorded as warnings.  The track and chunk
loops recurse on explicit fuel; the entry points supply fuel that the
theorems show sufficient, and exhaustion is a distinguished error. -/

/-- A seekable byte source supporting `read`, `seek` (relative) and `tell`,
as required by `MidiFileParser`. -/
structure Stream where
  data : List Nat
  pos : Nat
  deriving DecidableEq, Repr

/-- `stream.read(n)`: up to `n` bytes from the current position. -/
def Stream.read (s : Stream) (n : Nat) : List Nat × Stream :=
  let bs := (s.data.drop s.pos).take n
  (bs, { s with pos := s.pos + bs.length })

/-- `stream.seek(off, 1)`: relative seek (clamped at 0; the source would
raise there, a case never reached in the runs proved about). -/
def Stream.seek (s : Stream) (off : Int) : Stream :=
  { s with pos := ((s.pos : Int) + off).toNat }

/-- Handler callbacks as dispatched by the parser, in order. -/
inductive HMsg where
  | header (format num_tracks : Nat) (metrical : Bool)
      (tick_division fps frame_resolution : Nat)
  | reset_ticks
  | start_of_track (track : Nat)
  | update_ticks (ticks : Nat)
  | meta_event (ev : MidiEvent)
  | sysex_event (ev : MidiEvent)
  | escape_sequence (ev : MidiEvent)
  | invalid_event (ev : MidiEvent)
  | channel_message_event (ev : MidiEvent)
  | eof
  deriving DecidableEq, Repr

/-- Lenient-mode warnings (`log.warning` calls) of the parser. -/
inductive PWarn where
  | format0_tracks
  | supernumerous_track
  | unexpected_data_byte
  | header_size
  deriving DecidableEq, Repr

/-- Ways the parse can abort: `ParseError`s plus the other exceptions the
source can raise (`EOFError` escaping `parse_header`, `struct.error` on a
short `read_bew` input, `TypeError` from `ord(b'')`, `IndexError` from
`event.data[-1]` on empty sysex data), plus fuel exhaustion of the model. -/
inductive ParseErr where
  | invalid_header_id
  | invalid_track_id
  | format0_tracks
  | supernumerous_track
  | unexpected_data_byte
  | eof_header
  | read_bew_failed
  | eof_mid_track
  | index_error
  | fuel_exhausted
  deriving DecidableEq, Repr

structure ParserState where
  stream : Stream
  strict : Bool := true
  format : Nat := 0
  num_tracks : Nat := 0
  current_track : Option Nat := none
  running_status : Option Nat := none
  sysex_continuation : Bool := false
  trace : List HMsg := []
  warnings : List PWarn := []
  deriving DecidableEq, Repr

/-- `MidiFileParser.channel_data_sizes` (read via `.get(status & 0xF0, 0)`).
The source dict literal lists `CHANNEL_PRESSURE: 1` before
`MONO_PRESSURE: 2`; both constants are `0xD0`, and the later duplicate key
wins in a Python dict literal, so `0xD0` maps to 2, while `0xA0`
(polyphonic pressure) has no entry at all and falls to the `.get`
default 0. -/
def channel_data_sizes (status : Nat) : Nat :=
  if status = PROGRAM_CHANGE then 1
  else if status = NOTE_OFF then 2
  else if status = NOTE_ON then 2
  else if status = MONO_PRESSURE then 2
  else if status = CONTROLLER_CHANGE then 2
  else if status = PITCH_BEND then 2
  else 0

/-- `MidiFileParser.system_data_sizes` (`.get(status, 0)`). -/
def system_data_sizes (status : Nat) : Nat :=
  if status = MTC then 1
  else if status = SONG_POSITION_POINTER then 2
  else if status = SONG_SELECT then 1
  else 0

/-- `parser._read_event_data`: read a 4-byte window, decode a VLQ size,
seek back behind the unused window bytes, then read `size` bytes. -/
def read_event_data (s : Stream) : Nat × List Nat × Stream :=
  let r := s.read 4
  let size := read_varlen r.1
  let s2 := r.2.seek ((sizeof_varlen size : Int) - (r.1.length : Int))
  let r2 := s2.read size
  (size, r2.1, r2.2)

/-- `MidiFileParser.parse_header`. -/
def parse_header (ps : ParserState) : Except ParseErr ParserState :=
  let r := ps.stream.read 4
  if r.1 = [] then .error .eof_header
  else if r.1 ≠ FILE_HEADER then .error .invalid_header_id
  else
    let rlen := r.2.read 4
    match read_bew rlen.1 with
    | none => .error .read_bew_failed
    | some chunk_len =>
      let rf := rlen.2.read 2
      match read_bew rf.1 with
      | none => .error .read_bew_failed
      | some format =>
        let rn := rf.2.read 2
        match read_bew rn.1 with
        | none => .error .read_bew_failed
        | some num_tracks =>
          if format = 0 ∧ num_tracks > 1 ∧ ps.strict then .error .format0_tracks
          else
            let warns0 := if format = 0 ∧ num_tracks > 1 then [PWarn.format0_tracks] else []
            let rt := rn.2.read 2
            match rt.1 with
            | [fps, resolution] =>
              let metrical := ¬(fps &&& 0x80 ≠ 0)
              let warns1 := warns0 ++ (if chunk_len > 6 then [PWarn.header_size] else [])
              let stream2 :=
                if chunk_len > 6 then rt.2.seek ((chunk_len : Int) - 6) else rt.2
              let msg : HMsg :=
                if metrical then
                  match read_bew rt.1 with
                  | some division => .header format num_tracks true division 0xE7 0x28
                  | none => .header format num_tracks true 0 0xE7 0x28
                else .header format num_tracks false 96 fps resolution
              .ok { ps with
                stream := stream2,
                format := format,
                num_tracks := num_tracks,
                trace := ps.trace ++ [msg],
                warnings := ps.warnings ++ warns1 }
            | _ => .error .eof_mid_track

/-- Dispatch of a single event by status byte: the body of `parse_track`'s
`while` loop below the running-status handling.  Returns the state after
the event's bytes are consumed and its callback is dispatched. -/
def parse_track_event (ps : ParserState) (status : Nat) :
    Except ParseErr ParserState :=
  let track := ps.current_track.getD 0
  if status = META_EVENT then
    let rm := ps.stream.read 1
    match rm.1 with
    | [] => .error .eof_mid_track
    | mt :: _ =>
      let red := read_event_data rm.2
      let ev : MidiEvent :=
        { type := META_EVENT, track := track, meta_type := some mt,
          data_size := red.1, data := red.2.1 }
      .ok { ps with
        stream := red.2.2,
        running_status := none,
        trace := ps.trace ++ [HMsg.meta_event ev] }
  else if status = SYSTEM_EXCLUSIVE then
    let red := read_event_data ps.stream
    let ev : MidiEvent :=
      { type := SYSTEM_EXCLUSIVE, track := track, data_size := red.1, data := red.2.1 }
    match red.2.1.getLast? with
    | none => .error .index_error
    | some last =>
      .ok { ps with
        stream := red.2.2,
        running_status := none,
        sysex_continuation := last != END_OF_EXCLUSIVE,
        trace := ps.trace ++ [HMsg.sysex_event ev] }
  else if status = END_OF_EXCLUSIVE then
    let red := read_event_data ps.stream
    if ps.sysex_continuation then
      let ev : MidiEvent :=
        { type := SYSTEM_EXCLUSIVE, track := track, data_size := red.1, data := red.2.1 }
      match red.2.1.getLast? with
      | none => .error .index_error
      | some last =>
        .ok { ps with
          stream := red.2.2,
          running_status := none,
          sysex_continuation := last != END_OF_EXCLUSIVE,
          trace := ps.trace ++ [HMsg.sysex_event ev] }
    else
      let ev : MidiEvent :=
        { type := ESCAPE_SEQUENCE, track := track, data_size := red.1, data := red.2.1 }
      .ok { ps with
        stream := red.2.2,
        running_status := none,
        trace := ps.trace ++ [HMsg.escape_sequence ev] }
  else if 0xF1 ≤ status ∧ status ≤ 0xFE then
    let sz := system_data_sizes status
    let rd := ps.stream.read sz
    let ev : MidiEvent :=
      { type := status, track := track, data_size := sz, data := rd.1 }
    .ok { ps with
      stream := rd.2,
      running_status := none,
      trace := ps.trace ++ [HMsg.invalid_event ev] }
  else
    let sz := channel_data_sizes (status &&& 0xF0)
    let rd := ps.stream.read sz
    let ev : MidiEvent :=
      { type := status &&& 0xF0, track := track, data_size := sz, data := rd.1,
        channel := some (status &&& 0xF) }
    .ok { ps with
      stream := rd.2,
      trace := ps.trace ++ [HMsg.channel_message_event ev] }

/-- The `while` loop of `MidiFileParser.parse_track`, recursing on fuel.
`endpos` is `track_endposition`. -/
def parse_track_go (endpos : Nat) : Nat → ParserState → Except ParseErr ParserState
  | 0, ps =>
    if ps.stream.pos < endpos then .error .fuel_exhausted else .ok ps
  | fuel + 1, ps =>
    if ps.stream.pos < endpos then
      -- delta time
      let rt := ps.stream.read 4
      let ticks := read_varlen rt.1
      let s2 := rt.2.seek ((sizeof_varlen ticks : Int) - 4)
      let trace1 := ps.trace ++ (if ticks > 0 then [HMsg.update_ticks ticks] else [])
      -- status byte (`ord` of an empty read raises)
      let rs := s2.read 1
      match rs.1 with
      | [] => .error .eof_mid_track
      | b :: _ =>
        let s3 := rs.2
        if b &&& 0x80 ≠ 0 then
          match parse_track_event
              { ps with stream := s3, running_status := some b, trace := trace1 } b with
          | .error e => .error e
          | .ok ps2 => parse_track_go endpos fuel ps2
        else
          match ps.running_status with
          | some rstatus =>
            match parse_track_event
                { ps with stream := s3.seek (-1), trace := trace1 } rstatus with
            | .error e => .error e
            | .ok ps2 => parse_track_go endpos fuel ps2
          | none =>
            if ps.strict then .error .unexpected_data_byte
            else
              parse_track_go endpos fuel
                { ps with
                  stream := s3,
                  trace := trace1,
                  warnings := ps.warnings ++ [PWarn.unexpected_data_byte] }
    else .ok ps

/-- `MidiFileParser.parse_track`: chunk-id check, track counting with the
supernumerous-track check, `reset_ticks` / `start_of_track` dispatch, then
the event loop up to `track_endposition`. -/
def parse_track (ps : ParserState) (chunk_id : List Nat) (chunk_len : Nat) :
    Except ParseErr ParserState :=
  let ps := { ps with running_status := none, sysex_continuation := false }
  if chunk_id ≠ TRACK_HEADER then .error .invalid_track_id
  else
    let track := match ps.current_track with
      | none => 0
      | some t => t + 1
    if track ≥ ps.num_tracks ∧ ps.strict then .error .supernumerous_track
    else
      let warns := if track ≥ ps.num_tracks then [PWarn.supernumerous_track] else []
      let endpos := ps.stream.pos + chunk_len
      parse_track_go endpos (chunk_len + 1)
        { ps with
          current_track := some track,
          trace := ps.trace ++ [HMsg.reset_ticks, HMsg.start_of_track track],
          warnings := ps.warnings ++ warns }

/-- `MidiFileParser.parse_tracks` chunk loop, recursing on fuel. -/
def parse_tracks_go : Nat → ParserState → Except ParseErr ParserState
  | 0, _ => .error .fuel_exhausted
  | fuel + 1, ps =>
    let r := ps.stream.read 4
    if r.1 = [] then .ok { ps with trace := ps.trace ++ [HMsg.eof] }
    else
      let rlen := r.2.read 4
      match read_bew rlen.1 with
      | none => .error .read_bew_failed
      | some chunk_len =>
        if r.1 = TRACK_HEADER then
          match parse_track { ps with stream := rlen.2 } r.1 chunk_len with
          | .error e => .error e
          | .ok ps2 => parse_tracks_go fuel ps2
        else
          parse_tracks_go fuel { ps with stream := rlen.2.seek (chunk_len : Int) }

/-- `MidiFileParser.parse_tracks`: read chunks until EOF, parse the `MTrk`
ones, skip others, then dispatch `eof`. -/
def parse_tracks (ps : ParserState) : Except ParseErr ParserState :=
  parse_tracks_go (ps.stream.data.length + 1 - ps.stream.pos) ps

/-- `parse_header` followed by `parse_tracks`, over a fresh stream: the
`MidiFileReader.read` flow. -/
def parse_file (strict : Bool) (bytes : List Nat) : Except ParseErr ParserState :=
  match parse_header { stream := ⟨bytes, 0⟩, strict := strict } with
  | .error e => .error e
  | .ok ps => parse_tracks ps

/-! ### sequence.py : `ObjectMidiEventHandler`

The handler state combines the tick bookkeeping of
`api.BaseMidiEventHandler` (`absolute_time`, `relative_time`,
`current_track`) with the fields set in `ObjectMidiEventHandler.__init__`.
`current_time` is a float in the source and a rational here.  The fields of
the container `MidiSequence` instance that the handler mutates
(`tick_division` from `header`, the event list, `sequence_name`,
`initial_tempo`, per-track names) are carried in the same state record. -/

/-- An event as stored in the `MidiSequence` list: `add_event` decorates the
parser event with `time`, `relative_time` and the resolved track. -/
structure TimedEvent where
  ev : MidiEvent
  time : ℚ
  relative_time : Int
  track : Option Nat
  deriving DecidableEq, Repr

structure ObjState where
  absolute_time : Nat := 0
  relative_time : Int := 0
  current_track : Option Nat := none
  current_time : ℚ := 0
  current_tempo : Nat := 500000
  tick_division : Nat := 96
  sysex_continuation : Bool := false
  sysex_buffer : Option MidiEvent := none
  events : List TimedEvent := []
  inst_format : Nat := 0
  inst_num_tracks : Nat := 1
  inst_tick_division : ℚ := 96
  inst_metrical : Bool := true
  inst_fps : Nat := 0xE7
  inst_frame_resolution : Nat := 0x28
  inst_sequence_name : Option (List Nat) := none
  inst_track_names : List (Nat × List Nat) := []
  inst_initial_tempo : Option Nat := none
  current_time_signature : Option (Nat × Nat) := none
  deriving DecidableEq, Repr

/-- `BaseMidiEventHandler.update_ticks`: relative ticks set `relative_time`
and accumulate into `absolute_time`; absolute ticks reset the origin. -/
def base_update_ticks (s : ObjState) (ticks : Nat) (relative : Bool) : ObjState :=
  if relative then
    { s with relative_time := (ticks : Int), absolute_time := s.absolute_time + ticks }
  else
    { s with relative_time := (ticks : Int) - (s.absolute_time : Int), absolute_time := ticks }

/-- `ObjectMidiEventHandler.update_ticks`: the base bookkeeping plus
`current_time += ticks * (current_tempo / 1000.0 / instance.tick_division)`. -/
def obj_update_ticks (s : ObjState) (ticks : Nat) (relative : Bool) : ObjState :=
  let s := base_update_ticks s ticks relative
  { s with current_time :=
      s.current_time + (ticks : ℚ) * ((s.current_tempo : ℚ) / 1000 / s.inst_tick_division) }

/-- `ObjectMidiEventHandler.reset_ticks` (inherited from the base handler). -/
def obj_reset_ticks (s : ObjState) : ObjState :=
  { s with relative_time := 0, absolute_time := 0 }

/-- `ObjectMidiEventHandler.add_event`: stamp the event with the current
sequence time and resolved track, and append it to the container. -/
def obj_add_event (s : ObjState) (ev : MidiEvent) (track : Option Nat := none) : ObjState :=
  let tr : Option Nat := match track with
    | some t => some t
    | none => s.current_track
  { s with events := s.events ++ [⟨ev, s.current_time, s.relative_time, tr⟩] }

/-- `ObjectMidiEventHandler.header`: copies the header fields onto the
container instance (`setattr` over `locals()`). -/
def obj_header (s : ObjState) (format num_tracks tick_division : Nat) (metrical : Bool)
    (fps frame_resolution : Nat) : ObjState :=
  { s with
    inst_format := format,
    inst_num_tracks := num_tracks,
    inst_tick_division := (tick_division : ℚ),
    inst_metrical := metrical,
    inst_fps := fps,
    inst_frame_resolution := frame_resolution }

/-- `ObjectMidiEventHandler.start_of_track`. -/
def obj_start_of_track (s : ObjState) (track : Nat) : ObjState :=
  { s with current_track := some track }

/-- `ObjectMidiEventHandler.eof`. -/
def obj_eof (s : ObjState) : ObjState := { s with current_track := none }

/-- `ObjectMidiEventHandler.channel_message_event`. -/
def obj_channel_message_event (s : ObjState) (ev : MidiEvent) : ObjState :=
  obj_add_event s ev

/-- `ObjectMidiEventHandler.escape_sequence`. -/
def obj_escape_sequence (s : ObjState) (ev : MidiEvent) : ObjState :=
  obj_add_event s ev

/-- `ObjectMidiEventHandler.sysex_event`: assemble multi-packet sysex
messages.  `none` models the two crashes the source can hit here:
`tointseq(event.data)[-1]` on empty data (IndexError) and
`self._sysex_buffer.data` when no buffer is pending (AttributeError). -/
def obj_sysex_event (s : ObjState) (ev : MidiEvent) : Option ObjState :=
  match ev.data.getLast? with
  | none => none
  | some last =>
    if last = END_OF_EXCLUSIVE then
      if s.sysex_continuation then
        match s.sysex_buffer with
        | none => none
        | some buf =>
          let ev2 := { buf with data := buf.data ++ ev.data }
          let s2 := obj_add_event { s with sysex_buffer := none } ev2
          some { s2 with sysex_continuation := false }
      else
        some { obj_add_event s ev with sysex_continuation := false }
    else
      if s.sysex_continuation then
        match s.sysex_buffer with
        | none => none
        | some buf =>
          some { s with
            sysex_buffer := some { buf with data := buf.data ++ ev.data },
            sysex_continuation := true }
      else
        some { s with sysex_buffer := some ev, sysex_continuation := true }

/-- `ObjectMidiEventHandler.tempo`. -/
def obj_tempo (s : ObjState) (value : Nat) : ObjState :=
  let s := if s.inst_initial_tempo = none then { s with inst_initial_tempo := some value } else s
  { s with current_tempo := value }

/-- `ObjectMidiEventHandler.time_signature` (stores `(nn, dd ** 2)`). -/
def obj_time_signature (s : ObjState) (nn dd _cc _bb : Nat) : ObjState :=
  { s with current_time_signature := some (nn, dd ^ 2) }

/-- `ObjectMidiEventHandler.sequence_name`: track 0's name is stored at
sequence scope, other tracks' names per track. -/
def obj_sequence_name (s : ObjState) (name : List Nat) : ObjState :=
  if s.current_track = some 0 then { s with inst_sequence_name := some name }
  else { s with inst_track_names :=
    s.inst_track_names ++ [((s.current_track).getD 0, name)] }

/-- `ObjectMidiEventHandler.end_of_track`. -/
def obj_end_of_track (s : ObjState) : ObjState := { s with current_track := none }

/-- `ObjectMidiEventHandler.meta_event`: dispatch on the meta type, then
append the event with the track captured at entry.  Meta payload
destructuring (`b1, b2, b3 = tointseq(data)`) crashes on wrong lengths;
those cases yield `none`. -/
def obj_meta_event (s : ObjState) (ev : MidiEvent) : Option ObjState :=
  let track := s.current_track
  let after : Option ObjState :=
    if ev.meta_type = some TEMPO then
      match ev.data with
      | [b1, b2, b3] => some (obj_tempo s ((b1 <<< 16) + (b2 <<< 8) + b3))
      | _ => none
    else if ev.meta_type = some TIME_SIGNATURE then
      match ev.data with
      | [nn, dd, cc, bb] => some (obj_time_signature s nn dd cc bb)
      | _ => none
    else if ev.meta_type = some KEY_SIGNATURE then
      match ev.data with
      | [_, _] => some s
      | _ => none
    else if ev.meta_type = some SEQUENCE_NAME then
      some (obj_sequence_name s ev.data)
    else if ev.meta_type = some END_OF_TRACK then
      some (obj_end_of_track s)
    else
      some s
  match after with
  | none => none
  | some s2 => some (obj_add_event s2 ev track)

/-! ### api.py : `BaseMidiEventHandler.channel_message_event` -/

/-- The per-subtype handler calls `channel_message_event` can make. -/
inductive ChanCall where
  | note_on (channel note velocity : Nat)
  | note_off (channel note velocity : Nat)
  | poly_pressure (channel note pressure : Nat)
  | controller_change (channel controller value : Nat)
  | program_change (channel program : Nat)
  | channel_pressure (channel pressure : Nat)
  | pitch_bend (channel value : Nat)
  | unknown_channel_message (status : Nat) (data : List Nat)
  deriving DecidableEq, Repr

/-- `BaseMidiEventHandler.channel_message_event`: dispatch a channel voice
event to the per-subtype method.  A note-on with velocity 0 becomes
`note_off(ch, note, 0x40)` when `convert_zero_velocity` is set.  Tuple
unpacking of `event.data` crashes on wrong arity (`none`). -/
def base_channel_message_event (convert_zero_velocity : Bool) (ev : MidiEvent) :
    Option ChanCall :=
  let ch := ev.channel.getD 0
  if ev.type = NOTE_ON then
    match ev.data with
    | [note, velocity] =>
      if velocity = 0 ∧ convert_zero_velocity then some (.note_off ch note 0x40)
      else some (.note_on ch note velocity)
    | _ => none
  else if ev.type = NOTE_OFF then
    match ev.data with
    | [note, pressure] => some (.note_off ch note pressure)
    | _ => none
  else if ev.type = POLYPHONIC_PRESSURE then
    match ev.data with
    | [note, pressure] => some (.poly_pressure ch note pressure)
    | _ => none
  else if ev.type = CONTROLLER_CHANGE then
    match ev.data with
    | [controller, value] => some (.controller_change ch controller value)
    | _ => none
  else if ev.type = PROGRAM_CHANGE then
    match ev.data with
    | program :: _ => some (.program_change ch program)
    | _ => none
  else if ev.type = CHANNEL_PRESSURE then
    match ev.data with
    | pressure :: _ => some (.channel_pressure ch pressure)
    | _ => none
  else if ev.type = PITCH_BEND then
    match ev.data with
    | [hibyte, lobyte] => some (.pitch_bend ch ((hibyte <<< 7) + lobyte))
    | _ => none
  else some (.unknown_channel_message ev.type ev.data)

/-! ### Driving the sequence handler from the parser trace -/

/-- Dispatch one parser callback to `ObjectMidiEventHandler`. -/
def obj_handle (s : ObjState) : HMsg → Option ObjState
  | .header format num_tracks metrical tick_division fps frame_resolution =>
    some (obj_header s format num_tracks tick_division metrical fps frame_resolution)
  | .reset_ticks => some (obj_reset_ticks s)
  | .start_of_track t => some (obj_start_of_track s t)
  | .update_ticks t => some (obj_update_ticks s t true)
  | .meta_event ev => obj_meta_event s ev
  | .sysex_event ev => obj_sysex_event s ev
  | .escape_sequence ev => some (obj_escape_sequence s ev)
  | .invalid_event _ => some s
  | .channel_message_event ev => some (obj_channel_message_event s ev)
  | .eof => some (obj_eof s)

/-- Fold the sequence handler over a parser trace. -/
def obj_run : ObjState → List HMsg → Option ObjState
  | s, [] => some s
  | s, m :: ms =>
    match obj_handle s m with
    | none => none
    | some s2 => obj_run s2 ms

/-- Fold only the `sysex_event` handler over a list of delivered events. -/
def obj_sysex_fold : ObjState → List MidiEvent → Option ObjState
  | s, [] => some s
  | s, e :: es =>
    match obj_sysex_event s e with
    | none => none
    | some s2 => obj_sysex_fold s2 es

/-- The callback trace of a parse result (empty on error). -/
def traceOf : Except ParseErr ParserState → List HMsg
  | .ok ps => ps.trace
  | .error _ => []

/-- The stored event list of a handler run (empty on error). -/
def objEventsOf : Option ObjState → List TimedEvent
  | some s => s.events
  | none => []

/-- `MidiSequence.fromfile`: strict parse feeding an
`ObjectMidiEventHandler` over a fresh container. -/
def pipeline (strict : Bool) (bytes : List Nat) : Option ObjState :=
  obj_run {} (traceOf (parse_file strict bytes))

/-! ### Concrete input files for the end-to-end scenarios -/

/-- Spec scenario S3 with minimal framing: a type-0 file whose single
`MTrk` chunk holds exactly `[0x00, 0x90, 0x40, 0x64, 0x10, 0x40, 0x00]`
and nothing follows the chunk. -/
def c6min : List Nat :=
  [0x4D, 0x54, 0x68, 0x64, 0, 0, 0, 6, 0, 0, 0, 1, 0, 0x60,
   0x4D, 0x54, 0x72, 0x6B, 0, 0, 0, 7, 0x00, 0x90, 0x40, 0x64, 0x10, 0x40, 0x00]

/-- The same file with an ignorable 8-byte chunk (id `'XXXX'`, length 0)
after the track, so that the delta-time reads near the end of the track
stay within the stream. -/
def c6pad : List Nat := c6min ++ [0x58, 0x58, 0x58, 0x58, 0, 0, 0, 0]

/-- Spec scenario S4: a type-0 file whose track holds a sysex packet
`F0 len=3 [7E 00 06]` (unterminated), a 10-tick delta, a continuation
packet `F7 len=2 [7F F7]`, and an end-of-track meta event. -/
def c5file : List Nat :=
  [0x4D, 0x54, 0x68, 0x64, 0, 0, 0, 6, 0, 0, 0, 1, 0, 0x60,
   0x4D, 0x54, 0x72, 0x6B, 0, 0, 0, 15,
   0x00, 0xF0, 0x03, 0x7E, 0x00, 0x06,
   0x0A, 0xF7, 0x02, 0x7F, 0xF7,
   0x00, 0xFF, 0x2F, 0x00]

/-! ### writer.py : `MidiFileWriter`

The writer is a handler producing bytes.  `out` is what has been written to
the underlying file, `track_buffer` the `BytesIO` allocated per track
(writes go there while it exists).  The tick bookkeeping
(`absolute_time`, `relative_time`) is inherited from
`BaseMidiEventHandler`; `relative_time` is an `Int` because the base
handler's absolute mode can make it negative (the flows proved about only
use relative mode, where it stays a byte-count-able natural). -/

structure WriterState where
  out : List Nat := []
  track_buffer : Option (List Nat) := none
  absolute_time : Nat := 0
  relative_time : Int := 0
  current_track : Option Nat := none
  deriving DecidableEq, Repr

/-- `MidiFileWriter._write`: into the track buffer if one exists, else to
the file. -/
def writer_write (s : WriterState) (data : List Nat) : WriterState :=
  match s.track_buffer with
  | some b => { s with track_buffer := some (b ++ data) }
  | none => { s with out := s.out ++ data }

/-- `BaseMidiEventHandler.update_ticks` as inherited by the writer. -/
def writer_update_ticks (s : WriterState) (ticks : Nat) (relative : Bool) : WriterState :=
  if relative then
    { s with relative_time := (ticks : Int), absolute_time := s.absolute_time + ticks }
  else
    { s with relative_time := (ticks : Int) - (s.absolute_time : Int), absolute_time := ticks }

/-- `BaseMidiEventHandler.reset_ticks` as inherited by the writer. -/
def writer_reset_ticks (s : WriterState) : WriterState :=
  { s with relative_time := 0, absolute_time := 0 }

/-- `MidiFileWriter.event_slice`: the current relative time as a VLQ, the
raw event bytes, then `update_ticks()` (which zeroes the relative time). -/
def writer_event_slice (s : WriterState) (slc : List Nat) : WriterState :=
  let s1 := writer_write s (write_varlen s.relative_time.toNat)
  let s2 := writer_write s1 slc
  writer_update_ticks s2 0 true

/-- `MidiFileWriter.header`: `MThd`, length 6, format, track count and the
timing word (`tick_division & 32767` when metrical). -/
def writer_header (s : WriterState) (format num_tracks tick_division : Nat)
    (metrical : Bool) (fps frame_resolution : Nat) : WriterState :=
  let s := writer_write s FILE_HEADER
  let s := writer_write s (write_bew 6 4)
  let s := writer_write s (write_bew format 2)
  let s := writer_write s (write_bew num_tracks 2)
  if metrical then writer_write s (write_bew (tick_division &&& 32767) 2)
  else writer_write (writer_write s (write_bew fps 1)) (write_bew frame_resolution 1)

/-- `MidiFileWriter.start_of_track`: allocate a fresh track buffer. -/
def writer_start_of_track (s : WriterState) (track : Option Nat) : WriterState :=
  let t := match track with
    | some t => t
    | none =>
      match s.current_track with
      | none => 0
      | some ct => ct + 1
  { s with current_track := some t, track_buffer := some [] }

/-- `MidiFileWriter.end_of_track`: append the end-of-track slice, emit
`MTrk`, the 4-byte length, then the buffer; release the buffer.  `none`
models `self._track_buffer.getvalue()` with no buffer (AttributeError). -/
def writer_end_of_track (s : WriterState) : Option WriterState :=
  match s.track_buffer with
  | none => none
  | some track_data =>
    let eot_slice := write_varlen s.relative_time.toNat ++ [META_EVENT, END_OF_TRACK, 0]
    let s1 := { s with track_buffer := none }
    let s1 := writer_write s1 TRACK_HEADER
    let s1 := writer_write s1 (write_bew (track_data.length + eot_slice.length) 4)
    let s1 := writer_write s1 track_data
    some (writer_write s1 eot_slice)

/-- `MidiFileWriter.note_off`. -/
def writer_note_off (s : WriterState) (channel note velocity : Nat) : WriterState :=
  writer_event_slice s [NOTE_OFF + channel, note, velocity]

/-- `MidiFileWriter.note_on`. -/
def writer_note_on (s : WriterState) (channel note velocity : Nat) : WriterState :=
  writer_event_slice s [NOTE_ON + channel, note, velocity]

/-- `MidiFileWriter.poly_pressure`: emits `MONO_PRESSURE + channel`, i.e.
status `0xD0` — the wrong status byte for polyphonic pressure (`0xA0`). -/
def writer_poly_pressure (s : WriterState) (channel note pressure : Nat) : WriterState :=
  writer_event_slice s [MONO_PRESSURE + channel, note, pressure]

/-- `MidiFileWriter.controller_change`. -/
def writer_controller_change (s : WriterState) (channel controller value : Nat) : WriterState :=
  writer_event_slice s [CONTROLLER_CHANGE + channel, controller, value]

/-- `MidiFileWriter.program_change`. -/
def writer_program_change (s : WriterState) (channel program : Nat) : WriterState :=
  writer_event_slice s [PROGRAM_CHANGE + channel, program]

/-- `MidiFileWriter.channel_pressure`. -/
def writer_channel_pressure (s : WriterState) (channel pressure : Nat) : WriterState :=
  writer_event_slice s [CHANNEL_PRESSURE + channel, pressure]

/-- `MidiFileWriter.pitch_bend`: `msb = (value >> 7) & 0xFF`,
`lsb = value & 0xFF`, written in that order. -/
def writer_pitch_bend (s : WriterState) (channel value : Nat) : WriterState :=
  writer_event_slice s
    [PITCH_BEND + channel, (value >>> 7) &&& 0xFF, value &&& 0xFF]

/-- `MidiFileWriter.system_exclusive`:
`F0, VLQ(len + 1), data, F7`. -/
def writer_system_exclusive (s : WriterState) (data : List Nat) : WriterState :=
  writer_event_slice s
    ([SYSTEM_EXCLUSIVE] ++ write_varlen (data.length + 1) ++ data ++ [END_OF_EXCLUSIVE])

/-- `MidiFileWriter.meta_slice`: `FF, meta_type, VLQ(len), data`. -/
def writer_meta_slice (s : WriterState) (meta_type : Nat) (data : List Nat) : WriterState :=
  writer_event_slice s ([META_EVENT, meta_type] ++ write_varlen data.length ++ data)

/-- `MidiFileWriter.tempo`: three tempo bytes, silently masking the value
to 24 bits. -/
def writer_tempo (s : WriterState) (value : Nat) : WriterState :=
  writer_meta_slice s TEMPO
    [(value >>> 16) &&& 0xFF, (value >>> 8) &&& 0xFF, value &&& 0xFF]

/-- `MidiFileWriter.time_signature`. -/
def writer_time_signature (s : WriterState) (nn dd cc bb : Nat) : WriterState :=
  writer_meta_slice s TIME_SIGNATURE [nn, dd, cc, bb]

/-- `MidiFileWriter.key_signature`. -/
def writer_key_signature (s : WriterState) (sf mi : Nat) : WriterState :=
  writer_meta_slice s KEY_SIGNATURE [sf, mi]

/-- `MidiFileWriter.sequence_number` (payload `write_bew value 2`). -/
def writer_sequence_number (s : WriterState) (value : Nat) : WriterState :=
  writer_meta_slice s SEQUENCE_NUMBER (write_bew value 2)

/-- `MidiFileWriter.midi_ch_prefix`. -/
def writer_midi_ch_pfx (s : WriterState) (channel : Nat) : WriterState :=
  writer_meta_slice s MIDI_CH_PREFIX [channel]

/-- `MidiFileWriter.midi_port`: note the source emits the
`MIDI_CH_PREFIX` (0x20) meta type here, not `MIDI_PORT` (0x21). -/
def writer_midi_port (s : WriterState) (value : Nat) : WriterState :=
  writer_meta_slice s MIDI_CH_PREFIX [value]

/-- `MidiFileWriter.smtp_offset`. -/
def writer_smtp_offset (s : WriterState) (hour minute second frame frame_part : Nat) :
    WriterState :=
  writer_meta_slice s SMTP_OFFSET [hour, minute, second, frame, frame_part]

/-- `MidiFileWriter`'s text-meta methods (`text`, `copyright`,
`sequence_name`, `instrument_name`, `lyric`, `marker`, `cuepoint`) and
`unknown_meta_event` all reduce to `meta_slice` with the given type. -/
def writer_text_meta (s : WriterState) (meta_type : Nat) (data : List Nat) : WriterState :=
  writer_meta_slice s meta_type data

/-- `BaseMidiEventHandler.meta_event` as executed on the writer: dispatch
on the meta type to the writer's methods.  `none` models the crashes:
tuple unpacking of wrong-length payloads, `read_bew` on an unsupported
length, the missing `program_name` method (`PROGRAM_NAME` metas raise
AttributeError in strict mode), and `sequencer_specific`, which passes a
tuple where `meta_slice` needs bytes (TypeError).  `DEVICE_NAME` metas
reach `NullMidiEventHandler.device_name`, a no-op: the event is dropped. -/
def writer_meta_event (s : WriterState) (ev : MidiEvent) : Option WriterState :=
  if ev.meta_type = some END_OF_TRACK then
    match writer_end_of_track s with
    | none => none
    | some s2 => some { s2 with current_track := none }
  else if ev.meta_type = some TEMPO then
    match ev.data with
    | [b1, b2, b3] => some (writer_tempo s ((b1 <<< 16) + (b2 <<< 8) + b3))
    | _ => none
  else if ev.meta_type = some TIME_SIGNATURE then
    match ev.data with
    | [nn, dd, cc, bb] => some (writer_time_signature s nn dd cc bb)
    | _ => none
  else if ev.meta_type = some KEY_SIGNATURE then
    match ev.data with
    | [sf, mi] => some (writer_key_signature s sf mi)
    | _ => none
  else if ev.meta_type = some SEQUENCE_NAME then
    some (writer_text_meta s SEQUENCE_NAME ev.data)
  else if ev.meta_type = some PROGRAM_NAME then
    none
  else if ev.meta_type = some INSTRUMENT_NAME then
    some (writer_text_meta s INSTRUMENT_NAME ev.data)
  else if ev.meta_type = some TEXT then
    some (writer_text_meta s TEXT ev.data)
  else if ev.meta_type = some COPYRIGHT then
    some (writer_text_meta s COPYRIGHT ev.data)
  else if ev.meta_type = some SEQUENCE_NUMBER then
    match read_bew ev.data with
    | some number => some (writer_sequence_number s number)
    | none => none
  else if ev.meta_type = some LYRIC then
    some (writer_text_meta s LYRIC ev.data)
  else if ev.meta_type = some MARKER then
    some (writer_text_meta s MARKER ev.data)
  else if ev.meta_type = some CUEPOINT then
    some (writer_text_meta s CUEPOINT ev.data)
  else if ev.meta_type = some DEVICE_NAME then
    some s
  else if ev.meta_type = some MIDI_CH_PREFIX then
    match read_bew ev.data with
    | some channel => some (writer_midi_ch_pfx s channel)
    | none => none
  else if ev.meta_type = some MIDI_PORT then
    match read_bew ev.data with
    | some port => some (writer_midi_port s port)
    | none => none
  else if ev.meta_type = some SMTP_OFFSET then
    match ev.data with
    | [hour, minute, second, frame, frame_part] =>
      some (writer_smtp_offset s hour minute second frame frame_part)
    | _ => none
  else if ev.meta_type = some SEQUENCER_SPECIFIC then
    none
  else
    match ev.meta_type with
    | some mt => some (writer_text_meta s mt ev.data)
    | none => none

/-- A `ChanCall` executed on the writer. -/
def writer_chan_call (s : WriterState) : ChanCall → WriterState
  | .note_on ch note vel => writer_note_on s ch note vel
  | .note_off ch note vel => writer_note_off s ch note vel
  | .poly_pressure ch note p => writer_poly_pressure s ch note p
  | .controller_change ch c v => writer_controller_change s ch c v
  | .program_change ch p => writer_program_change s ch p
  | .channel_pressure ch p => writer_channel_pressure s ch p
  | .pitch_bend ch v => writer_pitch_bend s ch v
  | .unknown_channel_message _ _ => s

/-- One parser callback executed on the writer (the writer is a
`NullMidiEventHandler`).  `sysex_event` is `none`: the base handler calls
`self.sysex_message(...)`, a method no class in the hierarchy defines, so
any sysex event raises AttributeError in strict mode.  `escape_sequence`
and `invalid_event` are inherited no-ops: those events are dropped. -/
def writer_handle (s : WriterState) : HMsg → Option WriterState
  | .header format num_tracks metrical tick_division fps frame_resolution =>
    some (writer_header s format num_tracks tick_division metrical fps frame_resolution)
  | .reset_ticks => some (writer_reset_ticks s)
  | .start_of_track t => some (writer_start_of_track s (some t))
  | .update_ticks t => some (writer_update_ticks s t true)
  | .meta_event ev => writer_meta_event s ev
  | .sysex_event _ => none
  | .escape_sequence _ => some s
  | .invalid_event _ => some s
  | .channel_message_event ev =>
    match base_channel_message_event true ev with
    | some call => some (writer_chan_call s call)
    | none => none
  | .eof => some { s with current_track := none }

/-- Fold the writer over a parser trace. -/
def writer_run : WriterState → List HMsg → Option WriterState
  | s, [] => some s
  | s, m :: ms =>
    match writer_handle s m with
    | none => none
    | some s2 => writer_run s2 ms

/-- The bytes written by a writer run (empty on a crash). -/
def writer_out : Option WriterState → List Nat
  | some s => s.out
  | none => []

/-! ### The round-trip file class (claim C1)

A description of a well-formed SMF restricted to the event shapes whose
parse-then-write round trip can be byte-identical: note-off, note-on,
controller-change, program-change and pitch-bend channel-voice events with
explicit status bytes (no running status) and meta events, each track
ending in the end-of-track meta event.  Status `0xA0` (poly pressure) and
status `0xD0` (channel pressure) events are excluded: the parser's
`channel_data_sizes` table (duplicate `0xD0` dict key, later entry wins)
reads two data bytes for `0xD0` and zero for `0xA0`, so a standard
one-byte channel-pressure event misparses, a two-byte one is re-emitted
with one byte, and a poly-pressure event crashes the strict handler's
two-element tuple unpack. -/

inductive TrackEvt where
  | noteOff (ch note vel : Nat)
  | noteOn (ch note vel : Nat)
  | ctrl (ch c v : Nat)
  | prog (ch p : Nat)
  | bend (ch d1 d2 : Nat)
  | metaEvt (mt : Nat) (payload : List Nat)
  deriving DecidableEq, Repr

/-- On-wire bytes of one event (status byte always explicit). -/
def evtBytes : TrackEvt → List Nat
  | .noteOff ch n v => [NOTE_OFF + ch, n, v]
  | .noteOn ch n v => [NOTE_ON + ch, n, v]
  | .ctrl ch c v => [CONTROLLER_CHANGE + ch, c, v]
  | .prog ch p => [PROGRAM_CHANGE + ch, p]
  | .bend ch d1 d2 => [PITCH_BEND + ch, d1, d2]
  | .metaEvt mt payload => [META_EVENT, mt] ++ write_varlen payload.length ++ payload

/-- Delta time plus event bytes. -/
def sliceBytes (d : Nat) (e : TrackEvt) : List Nat := write_varlen d ++ evtBytes e

structure TrackSpec where
  events : List (Nat × TrackEvt)
  eot_delta : Nat
  deriving DecidableEq, Repr

/-- The `MTrk` payload: event slices then the end-of-track meta event. -/
def trackBody (t : TrackSpec) : List Nat :=
  (t.events.map fun de => sliceBytes de.1 de.2).flatten ++
  write_varlen t.eot_delta ++ [META_EVENT, END_OF_TRACK, 0]

/-- A full `MTrk` chunk. -/
def chunkBytes (t : TrackSpec) : List Nat :=
  TRACK_HEADER ++ write_bew (trackBody t).length 4 ++ trackBody t

structure FileSpec where
  format : Nat
  num_tracks : Nat
  division : Nat
  tracks : List TrackSpec
  deriving DecidableEq, Repr

/-- The serialized file: a 6-byte `MThd` with metrical timing, then the
track chunks. -/
def fileBytes (f : FileSpec) : List Nat :=
  FILE_HEADER ++ write_bew 6 4 ++ write_bew f.format 2 ++ write_bew f.num_tracks 2 ++
  write_bew f.division 2 ++
  (f.tracks.map chunkBytes).flatten

/-- Meta types whose write-back is byte-identical: excludes end-of-track
(emitted separately), `MIDI_PORT` (the writer emits meta type `0x20` for
it), `PROGRAM_NAME` (no handler method exists: AttributeError),
`DEVICE_NAME` (silently dropped by the null handler) and
`SEQUENCER_SPECIFIC` (the writer passes a tuple where bytes are needed:
TypeError); the typed metas must carry their standard payload lengths. -/
def MetaOk (mt : Nat) (payload : List Nat) : Prop :=
  mt ≠ END_OF_TRACK ∧ mt ≠ MIDI_PORT ∧ mt ≠ PROGRAM_NAME ∧ mt ≠ DEVICE_NAME ∧
  mt ≠ SEQUENCER_SPECIFIC ∧
  (mt = TEMPO → payload.length = 3) ∧
  (mt = TIME_SIGNATURE → payload.length = 4) ∧
  (mt = KEY_SIGNATURE → payload.length = 2) ∧
  (mt = SEQUENCE_NUMBER → payload.length = 2) ∧
  (mt = MIDI_CH_PREFIX → payload.length = 1) ∧
  (mt = SMTP_OFFSET → payload.length = 5)

/-- Event validity for the byte-identical round trip: data bytes in range,
note-ons with nonzero velocity, pitch bends whose first data byte is even
(the parser reassembles the 14-bit value as `(data[0] << 7) + data[1]` and
the writer re-splits it as `value >> 7` / `value & 0xFF`). -/
def ValidEvt : TrackEvt → Prop
  | .noteOff ch n v => ch < 16 ∧ n < 128 ∧ v < 128
  | .noteOn ch n v => ch < 16 ∧ n < 128 ∧ v < 128 ∧ v ≠ 0
  | .ctrl ch c v => ch < 16 ∧ c < 128 ∧ v < 128
  | .prog ch p => ch < 16 ∧ p < 128
  | .bend ch d1 d2 => ch < 16 ∧ d1 < 128 ∧ d2 < 128 ∧ d1 % 2 = 0
  | .metaEvt mt payload =>
    mt < 256 ∧ (∀ b ∈ payload, b < 256) ∧ payload.length < 2 ^ 28 ∧ MetaOk mt payload

def ValidTrack (t : TrackSpec) : Prop :=
  (∀ de ∈ t.events, de.1 < 2 ^ 28 ∧ ValidEvt de.2) ∧
  t.eot_delta < 2 ^ 28 ∧ (trackBody t).length < 2 ^ 32

def ValidFile (f : FileSpec) : Prop :=
  f.format < 65536 ∧ f.num_tracks < 65536 ∧ f.division < 32768 ∧
  (f.format = 0 → f.num_tracks ≤ 1) ∧ f.tracks.length ≤ f.num_tracks ∧
  ∀ t ∈ f.tracks, ValidTrack t

/-- The handler callback the parser makes for one event of track `track`. -/
def evtMsg (track : Nat) : TrackEvt → HMsg
  | .noteOff ch n v =>
    .channel_message_event ⟨NOTE_OFF, track, none, 2, [n, v], some ch⟩
  | .noteOn ch n v =>
    .channel_message_event ⟨NOTE_ON, track, none, 2, [n, v], some ch⟩
  | .ctrl ch c v =>
    .channel_message_event ⟨CONTROLLER_CHANGE, track, none, 2, [c, v], some ch⟩
  | .prog ch p =>
    .channel_message_event ⟨PROGRAM_CHANGE, track, none, 1, [p], some ch⟩
  | .bend ch d1 d2 =>
    .channel_message_event ⟨PITCH_BEND, track, none, 2, [d1, d2], some ch⟩
  | .metaEvt mt payload =>
    .meta_event ⟨META_EVENT, track, some mt, payload.length, payload, none⟩

/-- The callbacks for one delta/event pair. -/
def sliceMsgs (track : Nat) (de : Nat × TrackEvt) : List HMsg :=
  (if de.1 > 0 then [HMsg.update_ticks de.1] else []) ++ [evtMsg track de.2]

/-- The callbacks for one whole track. -/
def trackMsgs (track : Nat) (t : TrackSpec) : List HMsg :=
  [HMsg.reset_ticks, HMsg.start_of_track track] ++
  (t.events.map (sliceMsgs track)).flatten ++
  (if t.eot_delta > 0 then [HMsg.update_ticks t.eot_delta] else []) ++
  [HMsg.meta_event ⟨META_EVENT, track, some END_OF_TRACK, 0, [], none⟩]

/-- The full callback trace of parsing `fileBytes f`. -/
def fileMsgs (f : FileSpec) : List HMsg :=
  [HMsg.header f.format f.num_tracks true f.division 0xE7 0x28] ++
  (f.tracks.enum.map fun it => trackMsgs it.1 it.2).flatten ++
  [HMsg.eof]

/-- C1 counterexample input: a minimal strict-accepted type-0 file whose
track holds one note-on with velocity 0 (at delta 0) and the end-of-track
event. -/
def c1file : List Nat :=
  [0x4D, 0x54, 0x68, 0x64, 0, 0, 0, 6, 0, 0, 0, 1, 0, 0x60,
   0x4D, 0x54, 0x72, 0x6B, 0, 0, 0, 8,
   0x00, 0x90, 0x40, 0x00, 0x00, 0xFF, 0x2F, 0x00]

/-! #### Bitwise helper lemmas for the VLQ codec -/

theorem and255_and127 (z : Nat) : z &&& 255 &&& 127 = z &&& 127 := by
  rw [Nat.and_assoc, show (255 : Nat) &&& 127 = 127 from by decide]

theorem and127_eq_mod (y : Nat) : y &&& 127 = y % 128 := by
  have h := Nat.and_pow_two_sub_one_eq_mod y 7
  norm_num at h
  exact h

theorem and255_eq_mod (y : Nat) : y &&& 255 = y % 256 := by
  have h := Nat.and_pow_two_sub_one_eq_mod y 8
  norm_num at h
  exact h

theorem and32767_eq_mod (y : Nat) : y &&& 32767 = y % 32768 := by
  have h := Nat.and_pow_two_sub_one_eq_mod y 15
  norm_num at h
  exact h

theorem and15_eq_mod (y : Nat) : y &&& 15 = y % 16 := by
  have h := Nat.and_pow_two_sub_one_eq_mod y 4
  norm_num at h
  exact h

theorem lor128_and127 (y : Nat) : (y ||| 128) &&& 127 = y % 128 := by
  rw [Nat.and_distrib_right, show (128 : Nat) &&& 127 = 0 from by decide, Nat.or_zero,
    and127_eq_mod]

theorem highbit_and127 (z : Nat) : 128 &&& (z &&& 127) = 0 := by
  rw [Nat.and_comm 128 _, Nat.and_assoc, show (127 : Nat) &&& 128 = 0 from by decide,
    Nat.and_zero]

theorem highbit_lor128_and255 (y : Nat) : 128 &&& ((y ||| 128) &&& 255) ≠ 0 := by
  intro h
  have hb : ((128 : Nat) &&& ((y ||| 128) &&& 255)).testBit 7 = true := by
    simp [Nat.testBit_land, Nat.testBit_lor]
    exact ⟨by decide, Or.inr (by decide), by decide⟩
  rw [h] at hb
  simp at hb

theorem lor128_and255_and127 (y : Nat) : (y ||| 128) &&& 255 &&& 127 = y % 128 := by
  rw [and255_and127, lor128_and127]

theorem and127_and127 (y : Nat) : (y ||| 128) &&& 127 &&& 127 = y % 128 := by
  rw [Nat.and_assoc, show (127 : Nat) &&& 127 = 127 from by decide, lor128_and127]

theorem highbit_small (v : Nat) (h : v < 128) : 128 &&& v = 0 := by
  have hv : v = v &&& 127 := by rw [and127_eq_mod, Nat.mod_eq_of_lt h]
  conv_lhs => rw [hv]
  exact highbit_and127 v

/-! #### Shape of `write_varlen` on each size interval -/

theorem write_varlen_one (v : Nat) (h : v ≤ 127) : write_varlen v = [v] := by
  have hs : sizeof_varlen v = 1 := by unfold sizeof_varlen; rw [if_pos h]
  simp [write_varlen, hs]

theorem write_varlen_two (v : Nat) (h1 : 127 < v) (h2 : v ≤ 16383) :
    write_varlen v = [((v >>> 7) ||| 128) &&& 255, (v ||| 128) &&& 127] := by
  have hs : sizeof_varlen v = 2 := by
    unfold sizeof_varlen; rw [if_neg (by omega), if_pos (by omega)]
  simp [write_varlen, hs, List.range_succ]

theorem write_varlen_three (v : Nat) (h1 : 16383 < v) (h2 : v ≤ 2097151) :
    write_varlen v =
      [((v >>> 14) ||| 128) &&& 255, ((v >>> 7) ||| 128) &&& 255, (v ||| 128) &&& 127] := by
  have hs : sizeof_varlen v = 3 := by
    unfold sizeof_varlen; rw [if_neg (by omega), if_neg (by omega), if_pos (by omega)]
  simp [write_varlen, hs, List.range_succ]

theorem write_varlen_four (v : Nat) (h1 : 2097151 < v) :
    write_varlen v =
      [((v >>> 21) ||| 128) &&& 255, ((v >>> 14) ||| 128) &&& 255,
       ((v >>> 7) ||| 128) &&& 255, (v ||| 128) &&& 127] := by
  have hs : sizeof_varlen v = 4 := by
    unfold sizeof_varlen; rw [if_neg (by omega), if_neg (by omega), if_neg (by omega)]
  simp [write_varlen, hs, List.range_succ]

theorem write_varlen_length (v : Nat) : (write_varlen v).length = sizeof_varlen v := by
  by_cases h1 : v ≤ 127
  · rw [write_varlen_one v h1]; unfold sizeof_varlen; rw [if_pos h1]; rfl
  · by_cases h2 : v ≤ 16383
    · rw [write_varlen_two v (by omega) h2]
      unfold sizeof_varlen; rw [if_neg h1, if_pos h2]; rfl
    · by_cases h3 : v ≤ 2097151
      · rw [write_varlen_three v (by omega) h3]
        unfold sizeof_varlen; rw [if_neg h1, if_neg h2, if_pos h3]; rfl
      · rw [write_varlen_four v (by omega)]
        unfold sizeof_varlen; rw [if_neg h1, if_neg h2, if_neg h3]; rfl

/-- The VLQ round trip holds even with trailing bytes: `read_varlen` stops at
the terminator byte that `write_varlen` puts last. -/
theorem read_varlen_write_varlen_append (v : Nat) (hv : v < 2 ^ 28) (rest : List Nat) :
    read_varlen (write_varlen v ++ rest) = v := by
  by_cases h1 : v ≤ 127
  · rw [write_varlen_one v h1]
    simp only [List.cons_append, List.nil_append, read_varlen, read_varlen_go]
    rw [if_pos (highbit_small v (by omega))]
    rw [Nat.shiftLeft_eq, and127_eq_mod]
    simp [Nat.mod_eq_of_lt (show v < 128 by omega)]
  · by_cases h2 : v ≤ 16383
    · rw [write_varlen_two v (by omega) h2]
      simp only [List.cons_append, List.nil_append, read_varlen, read_varlen_go]
      rw [if_neg (highbit_lor128_and255 _), if_pos (highbit_and127 _)]
      rw [Nat.shiftLeft_eq, Nat.shiftLeft_eq, lor128_and255_and127, and127_and127,
        Nat.shiftRight_eq_div_pow]
      norm_num
      omega
    · by_cases h3 : v ≤ 2097151
      · rw [write_varlen_three v (by omega) h3]
        simp only [List.cons_append, List.nil_append, read_varlen, read_varlen_go]
        rw [if_neg (highbit_lor128_and255 _), if_neg (highbit_lor128_and255 _),
          if_pos (highbit_and127 _)]
        rw [Nat.shiftLeft_eq, Nat.shiftLeft_eq, Nat.shiftLeft_eq, lor128_and255_and127,
          lor128_and255_and127, and127_and127, Nat.shiftRight_eq_div_pow,
          Nat.shiftRight_eq_div_pow]
        norm_num
        omega
      · rw [write_varlen_four v (by omega)]
        simp only [List.cons_append, List.nil_append, read_varlen, read_varlen_go]
        rw [if_neg (highbit_lor128_and255 _), if_neg (highbit_lor128_and255 _),
          if_neg (highbit_lor128_and255 _), if_pos (highbit_and127 _)]
        rw [Nat.shiftLeft_eq, Nat.shiftLeft_eq, Nat.shiftLeft_eq, Nat.shiftLeft_eq,
          lor128_and255_and127, lor128_and255_and127, lor128_and255_and127, and127_and127,
          Nat.shiftRight_eq_div_pow, Nat.shiftRight_eq_div_pow, Nat.shiftRight_eq_div_pow]
        norm_num
        omega

theorem read_varlen_write_varlen (v : Nat) (hv : v < 2 ^ 28) :
    read_varlen (write_varlen v) = v := by
  have h := read_varlen_write_varlen_append v hv []
  rwa [List.append_nil] at h

/-! #### Behaviour of `read_varlen` on arbitrary input (no error signalling) -/

/-- The prefix of a byte list that `read_varlen` consumes: everything up to
and including the first byte with bit 7 clear, or all bytes if there is no
such terminator byte (there is no four-byte cap). -/
def vlq_pfx : List Nat → List Nat
  | [] => []
  | b :: rest => if 0x80 &&& b = 0 then [b] else b :: vlq_pfx rest

/-- Accumulate 7-bit groups the way `read_varlen` does. -/
def vlq_accum (s : Nat) (bs : List Nat) : Nat :=
  bs.foldl (fun sum b => sum * 128 + b % 128) s

theorem read_varlen_go_eq_accum (s : Nat) (bs : List Nat) :
    read_varlen_go s bs = vlq_accum s (vlq_pfx bs) := by
  induction bs generalizing s with
  | nil => rfl
  | cons b rest ih =>
    simp only [read_varlen_go, vlq_pfx]
    by_cases h : 0x80 &&& b = 0
    · rw [if_pos h, if_pos h]
      simp [vlq_accum, Nat.shiftLeft_eq, and127_eq_mod]
    · rw [if_neg h, if_neg h, ih]
      simp [vlq_accum, Nat.shiftLeft_eq, and127_eq_mod]

/-! ### Claim C2 -/

/-- C2: for every `v < 2^28`, `read_varlen (write_varlen v) = v` and the
number of bytes written equals `sizeof_varlen v`, which is 1 for `v < 128`,
2 for `v < 16384`, 3 for `v < 2097152`, else 4; together with the concrete
table `write_varlen 0 = [0x00]`, `write_varlen 127 = [0x7F]`,
`write_varlen 128 = [0x81, 0x00]`, `write_varlen 8192 = [0xC0, 0x00]`,
`write_varlen 0x0FFFFFFF = [0xFF, 0xFF, 0xFF, 0x7F]`. -/
theorem varlen_round_trip_law :
    (∀ v : Nat, v < 2 ^ 28 →
      read_varlen (write_varlen v) = v ∧ (write_varlen v).length = sizeof_varlen v) ∧
    (∀ v : Nat, sizeof_varlen v =
      if v < 128 then 1 else if v < 16384 then 2 else if v < 2097152 then 3 else 4) ∧
    write_varlen 0 = [0x00] ∧
    write_varlen 127 = [0x7F] ∧
    write_varlen 128 = [0x81, 0x00] ∧
    write_varlen 8192 = [0xC0, 0x00] ∧
    write_varlen 0x0FFFFFFF = [0xFF, 0xFF, 0xFF, 0x7F] := by
  refine ⟨fun v hv => ⟨read_varlen_write_varlen v hv, write_varlen_length v⟩, fun v => ?_,
    by decide, by decide, by decide, by decide, by decide⟩
  unfold sizeof_varlen
  rcases Nat.lt_or_ge v 128 with h | h
  · rw [if_pos (by omega), if_pos h]
  · rcases Nat.lt_or_ge v 16384 with h2 | h2
    · rw [if_neg (by omega), if_pos (by omega), if_neg (by omega), if_pos h2]
    · rcases Nat.lt_or_ge v 2097152 with h3 | h3
      · rw [if_neg (by omega), if_neg (by omega), if_pos (by omega), if_neg (by omega),
          if_neg (by omega), if_pos h3]
      · rw [if_neg (by omega), if_neg (by omega), if_neg (by omega), if_neg (by omega),
          if_neg (by omega), if_neg (by omega)]

/-- Witness for C2 at the concrete input `v = 200`. -/
theorem varlen_round_trip_law_witness :
    read_varlen (write_varlen 200) = 200 ∧ (write_varlen 200).length = sizeof_varlen 200 :=
  varlen_round_trip_law.1 200 (by norm_num)

/-! ### Claim C8 -/

/-- C8 counterexample: `read_varlen` signals no error at all.  On an input
where more than four bytes pass without a terminator it keeps accumulating
(here six bytes, yielding a value `≥ 2^28`, impossible for a four-byte VLQ),
and when the byte stream ends mid-quantity (a lone continuation byte, or an
empty stream) it returns the partial sum instead of failing. -/
theorem read_varlen_counterexample :
    read_varlen [0x81, 0x81, 0x81, 0x81, 0x81, 0x01] = 34630287489 ∧
    2 ^ 28 ≤ 34630287489 ∧
    read_varlen [0x81] = 1 ∧
    read_varlen [] = 0 := by
  refine ⟨by decide, by norm_num, by decide, rfl⟩

/-- C8 amended: `read_varlen` never fails.  It returns the value accumulated
from the bytes up to and including the first byte with the top bit clear,
with no four-byte cap (shown by a six-byte prefix being consumed whole), and
returns the partial accumulated value when the input ends with no terminator. -/
theorem read_varlen_never_fails :
    (∀ bs : List Nat, read_varlen bs = vlq_accum 0 (vlq_pfx bs)) ∧
    vlq_pfx [0x81, 0x81, 0x81, 0x81, 0x81, 0x81] = [0x81, 0x81, 0x81, 0x81, 0x81, 0x81] := by
  exact ⟨fun bs => read_varlen_go_eq_accum 0 bs, by decide⟩

/-! ### Claim C3 -/

/-- C3 counterexample: after a metrical header with 96 ticks per quarter
note, one `update_ticks(96)` call at the initial tempo (500000 µs/quarter)
raises `current_time` from 0 to 500 — not to
`96 × 500000 / 1e6 / 96 = 1/2` as the claim (a wall-time value in seconds)
requires.  The source divides by `1000.0`, not by `1e6`. -/
theorem update_ticks_counterexample :
    (obj_update_ticks (obj_header {} 0 1 96 true 0xE7 0x28) 96 true).current_time = 500 ∧
    (96 : ℚ) * 500000 / 1000000 / 96 = 1 / 2 ∧
    (500 : ℚ) ≠ 1 / 2 := by
  refine ⟨?_, by norm_num, by norm_num⟩
  norm_num [obj_update_ticks, base_update_ticks, obj_header]

/-- C3 amended: each `update_ticks(delta_ticks)` call (relative mode, as the
parser invokes it) increases `current_time` by exactly
`delta_ticks × current_tempo / 1000 / tick_division` — a value in
milliseconds, not seconds — where `tick_division` is the header value stored
on the container instance; it also adds `delta_ticks` to `absolute_time` and
sets `relative_time` to `delta_ticks`. -/
theorem update_ticks_increment (s : ObjState) (ticks : Nat) :
    (obj_update_ticks s ticks true).current_time =
      s.current_time + (ticks : ℚ) * (s.current_tempo : ℚ) / 1000 / s.inst_tick_division ∧
    (obj_update_ticks s ticks true).absolute_time = s.absolute_time + ticks ∧
    (obj_update_ticks s ticks true).relative_time = (ticks : Int) := by
  refine ⟨?_, rfl, rfl⟩
  show s.current_time + (ticks : ℚ) * ((s.current_tempo : ℚ) / 1000 / s.inst_tick_division) = _
  ring

/-! ### Claim C4 -/

/-- C4 counterexample: parsing the S4 file dispatches a `sysex_event`
callback to the handler whose payload ends in `0x06`, not `0xF7`: the
parser surfaces the first packet of a split sysex message to handlers
as-is (coalescing happens later, inside `ObjectMidiEventHandler`). -/
theorem sysex_terminator_counterexample :
    HMsg.sysex_event
      { type := SYSTEM_EXCLUSIVE, track := 0, meta_type := none, data_size := 3,
        data := [0x7E, 0x00, 0x06], channel := none } ∈ traceOf (parse_file true c5file) ∧
    List.getLast? [0x7E, 0x00, 0x06] = some 0x06 ∧ (0x06 : Nat) ≠ END_OF_EXCLUSIVE := by
  refine ⟨by decide, by decide, by decide⟩

/-- C4 amended: every sysex event that `ObjectMidiEventHandler.sysex_event`
*stores into the sequence container* has `0xF7` as its last payload byte;
multi-packet messages are coalesced there before storage.  The parser
itself dispatches partial (non-terminated) sysex packets to the handler's
`sysex_event` callback.  Hypotheses: the buffer invariant of the handler
(a pending continuation has a buffer) and non-empty payloads (the source
indexes `data[-1]`). -/
theorem sysex_events_stored_terminated (s : ObjState) (evs : List MidiEvent)
    (hInv : s.sysex_continuation = true → s.sysex_buffer ≠ none)
    (hne : ∀ e ∈ evs, e.data ≠ []) :
    ∃ s2, obj_sysex_fold s evs = some s2 ∧
      (s2.sysex_continuation = true → s2.sysex_buffer ≠ none) ∧
      (∀ t ∈ s2.events, t ∈ s.events ∨ t.ev.data.getLast? = some END_OF_EXCLUSIVE) := by
  induction evs generalizing s with
  | nil => exact ⟨s, rfl, hInv, fun t ht => Or.inl ht⟩
  | cons e es ih =>
    have hd : e.data ≠ [] := hne e (List.mem_cons_self e es)
    obtain ⟨last, hlast⟩ := Option.isSome_iff_exists.mp (List.getLast?_isSome.mpr hd)
    have hne2 : ∀ x ∈ es, x.data ≠ [] := fun x hx => hne x (List.mem_cons_of_mem e hx)
    by_cases hterm : last = END_OF_EXCLUSIVE
    · by_cases hcont : s.sysex_continuation = true
      · obtain ⟨buf, hbuf⟩ := Option.ne_none_iff_exists.mp (hInv hcont)
        have hstep : obj_sysex_event s e = some
            { (obj_add_event { s with sysex_buffer := none }
                { buf with data := buf.data ++ e.data }) with sysex_continuation := false } := by
          simp only [obj_sysex_event, hlast]
          rw [if_pos hterm, if_pos hcont, ← hbuf]
        obtain ⟨s2, hrun, hinv2, hmem⟩ := ih
          { (obj_add_event { s with sysex_buffer := none }
              { buf with data := buf.data ++ e.data }) with sysex_continuation := false }
          (by simp) hne2
        refine ⟨s2, ?_, hinv2, ?_⟩
        · simp only [obj_sysex_fold, hstep]
          exact hrun
        · intro t ht
          rcases hmem t ht with h | h
          · rw [obj_add_event] at h
            simp only [List.mem_append, List.mem_singleton] at h
            rcases h with h | h
            · exact Or.inl h
            · refine Or.inr ?_
              rw [h]
              show (buf.data ++ e.data).getLast? = some END_OF_EXCLUSIVE
              rw [List.getLast?_append_of_ne_nil _ hd, hlast, hterm]
          · exact Or.inr h
      · have hstep : obj_sysex_event s e = some
            { (obj_add_event s e) with sysex_continuation := false } := by
          simp only [obj_sysex_event, hlast]
          rw [if_pos hterm, if_neg hcont]
        obtain ⟨s2, hrun, hinv2, hmem⟩ := ih
          { (obj_add_event s e) with sysex_continuation := false } (by simp) hne2
        refine ⟨s2, ?_, hinv2, ?_⟩
        · simp only [obj_sysex_fold, hstep]
          exact hrun
        · intro t ht
          rcases hmem t ht with h | h
          · rw [obj_add_event] at h
            simp only [List.mem_append, List.mem_singleton] at h
            rcases h with h | h
            · exact Or.inl h
            · refine Or.inr ?_
              rw [h]
              show e.data.getLast? = some END_OF_EXCLUSIVE
              rw [hlast, hterm]
          · exact Or.inr h
    · by_cases hcont : s.sysex_continuation = true
      · obtain ⟨buf, hbuf⟩ := Option.ne_none_iff_exists.mp (hInv hcont)
        have hstep : obj_sysex_event s e = some
            { s with sysex_buffer := some { buf with data := buf.data ++ e.data },
                     sysex_continuation := true } := by
          simp only [obj_sysex_event, hlast]
          rw [if_neg hterm, if_pos hcont, ← hbuf]
        obtain ⟨s2, hrun, hinv2, hmem⟩ := ih
          { s with sysex_buffer := some { buf with data := buf.data ++ e.data },
                   sysex_continuation := true } (by simp) hne2
        exact ⟨s2, by simp only [obj_sysex_fold, hstep]; exact hrun, hinv2, hmem⟩
      · have hstep : obj_sysex_event s e = some
            { s with sysex_buffer := some e, sysex_continuation := true } := by
          simp only [obj_sysex_event, hlast]
          rw [if_neg hterm, if_neg hcont]
        obtain ⟨s2, hrun, hinv2, hmem⟩ := ih
          { s with sysex_buffer := some e, sysex_continuation := true } (by simp) hne2
        exact ⟨s2, by simp only [obj_sysex_fold, hstep]; exact hrun, hinv2, hmem⟩

/-- Witness for C4 at a concrete input: a fresh handler given one
terminated sysex event. -/
theorem sysex_events_stored_terminated_witness :
    ∃ s2, obj_sysex_fold {}
        [{ type := SYSTEM_EXCLUSIVE, track := 0, meta_type := none, data_size := 2,
           data := [0x01, 0xF7], channel := none }] = some s2 ∧
      (s2.sysex_continuation = true → s2.sysex_buffer ≠ none) ∧
      (∀ t ∈ s2.events, t ∈ ObjState.events {} ∨
        t.ev.data.getLast? = some END_OF_EXCLUSIVE) :=
  sysex_events_stored_terminated {}
    [{ type := SYSTEM_EXCLUSIVE, track := 0, meta_type := none, data_size := 2,
       data := [0x01, 0xF7], channel := none }]
    (by intro h; simp at h) (by decide)

/-! ### Claim C5 -/

/-- C5: the S4 split-sysex file stores exactly one sysex event with the
coalesced payload `[0x7E, 0x00, 0x06, 0x7F, 0xF7]` — but its timestamp is
`625/12` (the sequence time at the *final* continuation packet, reached
after the 10-tick delta), not `0` (the time of the first `F0` packet), even
though the handler's own docstring promises the timestamp of the first
packet.  The second stored event is the end-of-track meta event. -/
theorem split_sysex_timestamp_bug :
    objEventsOf (pipeline true c5file) =
      [{ ev := { type := SYSTEM_EXCLUSIVE, track := 0, meta_type := none, data_size := 3,
                 data := [0x7E, 0x00, 0x06, 0x7F, 0xF7], channel := none },
         time := 625 / 12, relative_time := 10, track := some 0 },
       { ev := { type := META_EVENT, track := 0, meta_type := some END_OF_TRACK,
                 data_size := 0, data := [], channel := none },
         time := 625 / 12, relative_time := 10, track := some 0 }] ∧
    (625 : ℚ) / 12 = 10 * ((500000 : ℚ) / 1000 / 96) ∧
    (625 : ℚ) / 12 ≠ 0 := by
  have ht : traceOf (parse_file true c5file) =
      [HMsg.header 0 1 true 96 0xE7 0x28, HMsg.reset_ticks, HMsg.start_of_track 0,
       HMsg.sysex_event
         { type := SYSTEM_EXCLUSIVE, track := 0, meta_type := none, data_size := 3,
           data := [0x7E, 0x00, 0x06], channel := none },
       HMsg.update_ticks 10,
       HMsg.sysex_event
         { type := SYSTEM_EXCLUSIVE, track := 0, meta_type := none, data_size := 2,
           data := [0x7F, 0xF7], channel := none },
       HMsg.meta_event
         { type := META_EVENT, track := 0, meta_type := some END_OF_TRACK,
           data_size := 0, data := [], channel := none },
       HMsg.eof] := by decide
  refine ⟨?_, by norm_num, by norm_num⟩
  rw [pipeline, ht]
  norm_num [obj_run, obj_handle, obj_header, obj_reset_ticks, obj_start_of_track,
    obj_update_ticks, base_update_ticks, obj_sysex_event, obj_add_event, obj_meta_event,
    obj_eof, obj_end_of_track, objEventsOf, SYSTEM_EXCLUSIVE, END_OF_EXCLUSIVE,
    META_EVENT, END_OF_TRACK, TEMPO, TIME_SIGNATURE, KEY_SIGNATURE, SEQUENCE_NAME]

/-! ### Claim C6 -/

/-- With the file ending exactly at the `MTrk` chunk boundary, the track
loop reaches position 28 in a state it returns to after every further
iteration (the delta-time read near EOF gets fewer than 4 bytes, but the
parser unconditionally seeks back by `sizeof_varlen(ticks) - 4`): the loop
never terminates for any amount of fuel. -/
theorem c6_cycle_diverges (fuel : Nat) :
    ∀ (tr : List HMsg) (wn : List PWarn),
      parse_track_go 29 fuel
        { stream := ⟨c6min, 28⟩, strict := true, format := 0, num_tracks := 1,
          current_track := some 0, running_status := some 0x90,
          sysex_continuation := false, trace := tr, warnings := wn } =
      .error .fuel_exhausted := by
  induction fuel with
  | zero => intro tr wn; rfl
  | succ n ih =>
    intro tr wn
    exact ih ((tr ++ []) ++ [HMsg.channel_message_event
      { type := 0x90, track := 0, meta_type := none, data_size := 2,
        data := [0x10, 0x40], channel := some 0 }]) wn

/-- C6 counterexample: on the scenario file framed with nothing after the
`MTrk` chunk, the parse does not dispatch two events and return — it never
terminates (the model's fuel runs out; `c6_cycle_diverges` shows the loop
state recurs for every fuel). -/
theorem running_status_counterexample :
    parse_file true c6min = .error .fuel_exhausted := by
  rfl

/-- C6 amended: provided at least one byte follows the `MTrk` chunk in the
stream (here an ignorable trailing chunk), the parser dispatches exactly
two channel-voice events via running status — note-on ch 0 note `0x40`
velocity `0x64` at delta 0, and a velocity-0 note-on at delta 16 that the
base handler's `convert_zero_velocity` policy delivers as
`note_off(0, 0x40, 0x40)`.  With the minimal framing the loop instead
diverges (the recurring state is exhibited for every fuel). -/
theorem running_status_scenario :
    traceOf (parse_file true c6pad) =
      [HMsg.header 0 1 true 96 0xE7 0x28, HMsg.reset_ticks, HMsg.start_of_track 0,
       HMsg.channel_message_event
         { type := NOTE_ON, track := 0, meta_type := none, data_size := 2,
           data := [0x40, 0x64], channel := some 0 },
       HMsg.update_ticks 16,
       HMsg.channel_message_event
         { type := NOTE_ON, track := 0, meta_type := none, data_size := 2,
           data := [0x40, 0x00], channel := some 0 },
       HMsg.eof] ∧
    base_channel_message_event true
      { type := NOTE_ON, track := 0, meta_type := none, data_size := 2,
        data := [0x40, 0x64], channel := some 0 } = some (.note_on 0 0x40 0x64) ∧
    base_channel_message_event true
      { type := NOTE_ON, track := 0, meta_type := none, data_size := 2,
        data := [0x40, 0x00], channel := some 0 } = some (.note_off 0 0x40 0x40) ∧
    (∀ (fuel : Nat) (tr : List HMsg) (wn : List PWarn),
      parse_track_go 29 fuel
        { stream := ⟨c6min, 28⟩, strict := true, format := 0, num_tracks := 1,
          current_track := some 0, running_status := some 0x90,
          sysex_continuation := false, trace := tr, warnings := wn } =
      .error .fuel_exhausted) := by
  refine ⟨by decide, by decide, by decide, c6_cycle_diverges⟩

/-! ### Claim C7 -/

set_option maxHeartbeats 2000000 in
/-- C7: a format-0 header declaring more than one track (`hi * 256 + lo`)
makes `parse_header` raise in strict mode, and in lenient mode only record
a warning and continue (the header callback is still dispatched and the
stream continues past the header); a track chunk beyond the declared track
count makes `parse_track` raise in strict mode, and in lenient mode only
record a warning and continue parsing the chunk (shown for an empty chunk:
`reset_ticks` / `start_of_track` are dispatched and the parse succeeds). -/
theorem format_violation_handling :
    (∀ hi lo : Nat, hi * 256 + lo > 1 →
      parse_header { stream := ⟨[0x4D, 0x54, 0x68, 0x64, 0, 0, 0, 6, 0, 0, hi, lo, 0, 0x60], 0⟩,
                     strict := true } = .error .format0_tracks) ∧
    (∀ hi lo : Nat, hi * 256 + lo > 1 →
      parse_header { stream := ⟨[0x4D, 0x54, 0x68, 0x64, 0, 0, 0, 6, 0, 0, hi, lo, 0, 0x60], 0⟩,
                     strict := false } =
        .ok { stream := ⟨[0x4D, 0x54, 0x68, 0x64, 0, 0, 0, 6, 0, 0, hi, lo, 0, 0x60], 14⟩,
              strict := false, format := 0, num_tracks := hi * 256 + lo,
              trace := [HMsg.header 0 (hi * 256 + lo) true 0x60 0xE7 0x28],
              warnings := [PWarn.format0_tracks] }) ∧
    (∀ (ps : ParserState) (t chunk_len : Nat), ps.strict = true →
      ps.current_track = some t → t + 1 ≥ ps.num_tracks →
      parse_track ps TRACK_HEADER chunk_len = .error .supernumerous_track) ∧
    (∀ (ps : ParserState) (t : Nat), ps.strict = false →
      ps.current_track = some t → t + 1 ≥ ps.num_tracks →
      parse_track ps TRACK_HEADER 0 =
        .ok { ps with
              running_status := none, sysex_continuation := false,
              current_track := some (t + 1),
              trace := ps.trace ++ [HMsg.reset_ticks, HMsg.start_of_track (t + 1)],
              warnings := ps.warnings ++ [PWarn.supernumerous_track] }) := by
  refine ⟨fun hi lo h => ?_, fun hi lo h => ?_, fun ps t chunk_len hs hc hn => ?_,
    fun ps t hs hc hn => ?_⟩
  · unfold parse_header
    norm_num [Stream.read, read_bew, FILE_HEADER]
    rw [if_pos h]
    rfl
  · unfold parse_header
    norm_num [Stream.read, read_bew, FILE_HEADER]
    rw [if_pos h]
    rfl
  · unfold parse_track
    rw [hc]
    norm_num [hs, hn]
  · unfold parse_track
    rw [hc]
    norm_num [hs, hn]
    unfold parse_track_go
    norm_num

/-- Witness for C7 at concrete inputs: a strict format-0 header declaring
two tracks is rejected, and a lenient parser hitting a second track when
only one was declared succeeds with a warning. -/
theorem format_violation_handling_witness :
    parse_header { stream := ⟨[0x4D, 0x54, 0x68, 0x64, 0, 0, 0, 6, 0, 0, 0, 2, 0, 0x60], 0⟩,
                   strict := true } = .error .format0_tracks ∧
    parse_track { stream := ⟨[], 0⟩, strict := false, num_tracks := 1,
                  current_track := some 0 } TRACK_HEADER 0 =
      .ok { stream := ⟨[], 0⟩, strict := false, num_tracks := 1,
            current_track := some 1,
            trace := [HMsg.reset_ticks, HMsg.start_of_track 1],
            warnings := [PWarn.supernumerous_track] } :=
  ⟨format_violation_handling.1 0 2 (by norm_num),
   format_violation_handling.2.2.2
     { stream := ⟨[], 0⟩, strict := false, num_tracks := 1, current_track := some 0 }
     0 rfl rfl (by norm_num)⟩

/-! ### Claim C9 -/

/-- C9 counterexample: the writer performs no argument validation and
silently clamps.  `tempo(2^24)` produces exactly the same state as
`tempo(0)` (the value is masked to its low 24 bits — a silent clamp, no
error); `note_on` with channel 20 (> 15) happily emits status byte
`0xA4`, which is not a note-on at all; a metrical tick division with the
high bit set is masked by `& 32767`. -/
theorem writer_validation_counterexample :
    writer_tempo {} 0x1000000 = writer_tempo {} 0 ∧
    (writer_note_on {} 20 0x40 0x40).out = [0x00, 0xA4, 0x40, 0x40] ∧
    (20 : Nat) > 15 ∧
    writer_header {} 0 1 0x8000 true 0xE7 0x28 =
      writer_header {} 0 1 0 true 0xE7 0x28 := by
  refine ⟨by decide, by decide, by decide, by decide⟩

/-- C9 amended: the writer's methods raise nothing on out-of-spec inputs —
there is no `ArgumentOutOfRange`-style check anywhere.  Instead they
silently clamp or corrupt: `tempo` masks its argument to the low 24 bits,
a metrical header masks the tick division to the low 15 bits, and the
channel-voice methods add any channel value into the status byte
unchecked. -/
theorem writer_no_validation (s : WriterState)
    (value division f n fps res ch note vel : Nat) :
    writer_tempo s value = writer_tempo s (value % 16777216) ∧
    writer_header s f n division true fps res =
      writer_header s f n (division % 32768) true fps res ∧
    writer_note_on s ch note vel =
      writer_event_slice s [NOTE_ON + ch, note, vel] := by
  refine ⟨?_, ?_, rfl⟩
  · rw [writer_tempo, writer_tempo]
    have h1 : (value >>> 16) &&& 255 = ((value % 16777216) >>> 16) &&& 255 := by
      rw [Nat.shiftRight_eq_div_pow, Nat.shiftRight_eq_div_pow, and255_eq_mod, and255_eq_mod]
      norm_num
      omega
    have h2 : (value >>> 8) &&& 255 = ((value % 16777216) >>> 8) &&& 255 := by
      rw [Nat.shiftRight_eq_div_pow, Nat.shiftRight_eq_div_pow, and255_eq_mod, and255_eq_mod]
      norm_num
      omega
    have h3 : value &&& 255 = (value % 16777216) &&& 255 := by
      rw [and255_eq_mod, and255_eq_mod]
      omega
    rw [h1, h2, h3]
  · rw [writer_header, writer_header]
    have : division &&& 32767 = (division % 32768) &&& 32767 := by
      rw [and32767_eq_mod, and32767_eq_mod]
      omega
    rw [this]

/-- Witness for C9 at concrete inputs. -/
theorem writer_no_validation_witness :
    writer_tempo {} 500000 = writer_tempo {} (500000 % 16777216) ∧
    writer_header {} 0 1 480 true 0xE7 0x28 =
      writer_header {} 0 1 (480 % 32768) true 0xE7 0x28 ∧
    writer_note_on {} 3 0x40 0x40 =
      writer_event_slice {} [NOTE_ON + 3, 0x40, 0x40] :=
  writer_no_validation {} 500000 480 0 1 0xE7 0x28 3 0x40 0x40

/-! ### Claim C10 -/

theorem byTrackTime_trans (a b c : SeqEvent) (hab : byTrackTime a b = true)
    (hbc : byTrackTime b c = true) : byTrackTime a c = true := by
  simp only [byTrackTime, Bool.or_eq_true, Bool.and_eq_true, beq_iff_eq, decide_eq_true_eq,
    Nat.lt_irrefl] at *
  rcases hab with h | ⟨h1, h2⟩ <;> rcases hbc with h' | ⟨h1', h2'⟩
  · exact Or.inl (Nat.lt_trans h h')
  · exact Or.inl (h1' ▸ h)
  · exact Or.inl (h1 ▸ h')
  · exact Or.inr ⟨h1.trans h1', le_trans h2 h2'⟩

theorem byTrackTime_total (a b : SeqEvent) :
    (byTrackTime a b || byTrackTime b a) = true := by
  simp only [byTrackTime, Bool.or_eq_true, Bool.and_eq_true, beq_iff_eq, decide_eq_true_eq]
  rcases Nat.lt_trichotomy a.track b.track with h | h | h
  · exact Or.inl (Or.inl h)
  · rcases le_total a.time b.time with ht | ht
    · exact Or.inl (Or.inr ⟨h, ht⟩)
    · exact Or.inr (Or.inr ⟨h.symm, ht⟩)
  · exact Or.inr (Or.inl h)

/-- C10: `channel_message_events` never yields an event whose channel is
`0` (or `None`), and `meta_events` never yields one whose meta type is
`0x00` (or `None`); every event with a matching track and a truthy channel
(resp. meta type) is yielded, and both views come out sorted by
`(track, time)`. -/
theorem sequence_view_filters (s : List SeqEvent) (t : Option Nat) :
    (∀ e ∈ channel_message_events s t, e.channel ≠ some 0 ∧ e.channel ≠ none) ∧
    (∀ e ∈ meta_events s t, e.meta_type ≠ some 0 ∧ e.meta_type ≠ none) ∧
    (∀ e, e ∈ channel_message_events s t ↔
      e ∈ s ∧ truthy e.channel = true ∧ matchesTrack t e = true) ∧
    (∀ e, e ∈ meta_events s t ↔
      e ∈ s ∧ truthy e.meta_type = true ∧ matchesTrack t e = true) ∧
    (channel_message_events s t).Pairwise (fun a b => byTrackTime a b = true) ∧
    (meta_events s t).Pairwise (fun a b => byTrackTime a b = true) := by
  have hsorted : (s.mergeSort byTrackTime).Pairwise (fun a b => byTrackTime a b = true) :=
    List.sorted_mergeSort byTrackTime_trans byTrackTime_total s
  have hperm := List.mergeSort_perm s byTrackTime
  refine ⟨?_, ?_, ?_, ?_, ?_, ?_⟩
  · intro e he
    rw [channel_message_events, List.mem_filter] at he
    have hc := he.2
    simp only [Bool.and_eq_true] at hc
    have := hc.1
    cases hch : e.channel with
    | none => rw [hch] at this; simp [truthy] at this
    | some n =>
      refine ⟨?_, by simp⟩
      rw [hch] at this
      simp only [truthy, ne_eq, bne_iff_ne] at this
      simp only [ne_eq, Option.some.injEq]
      exact this
  · intro e he
    rw [meta_events, List.mem_filter] at he
    have hc := he.2
    simp only [Bool.and_eq_true] at hc
    have := hc.1
    cases hch : e.meta_type with
    | none => rw [hch] at this; simp [truthy] at this
    | some n =>
      refine ⟨?_, by simp⟩
      rw [hch] at this
      simp only [truthy, ne_eq, bne_iff_ne] at this
      simp only [ne_eq, Option.some.injEq]
      exact this
  · intro e
    rw [channel_message_events, List.mem_filter, hperm.mem_iff, Bool.and_eq_true]
  · intro e
    rw [meta_events, List.mem_filter, hperm.mem_iff, Bool.and_eq_true]
  · exact hsorted.filter _
  · exact hsorted.filter _

/-- Witness for C10 on a concrete two-event sequence: the channel-0 event is
filtered out, the channel-1 event is yielded. -/
theorem sequence_view_filters_witness :
    (⟨0x90, 0, 0, none, some 1, [60, 100]⟩ : SeqEvent) ∈
      channel_message_events
        [⟨0x90, 0, 0, none, some 1, [60, 100]⟩, ⟨0x90, 0, 0, none, some 0, [61, 100]⟩] none ∧
    (⟨0x90, 0, 0, none, some 1, [60, 100]⟩ : SeqEvent).channel ≠ some 0 := by
  have h := sequence_view_filters
    [⟨0x90, 0, 0, none, some 1, [60, 100]⟩, ⟨0x90, 0, 0, none, some 0, [61, 100]⟩] none
  have hmem : (⟨0x90, 0, 0, none, some 1, [60, 100]⟩ : SeqEvent) ∈
      channel_message_events
        [⟨0x90, 0, 0, none, some 1, [60, 100]⟩, ⟨0x90, 0, 0, none, some 0, [61, 100]⟩] none :=
    (h.2.2.1 _).mpr ⟨by simp, by decide, by decide⟩
  exact ⟨hmem, (h.1 _ hmem).1⟩

/-! ### Round-trip machinery (claim C1): parser side -/

theorem sizeof_varlen_le_four (v : Nat) : sizeof_varlen v <= 4 := by
  unfold sizeof_varlen
  repeat' split
  all_goals omega

theorem sizeof_varlen_pos (v : Nat) : 1 <= sizeof_varlen v := by
  unfold sizeof_varlen
  repeat' split
  all_goals omega

theorem write_varlen_length_le (v : Nat) : (write_varlen v).length <= 4 := by
  rw [write_varlen_length]; exact sizeof_varlen_le_four v

theorem write_varlen_length_pos (v : Nat) : 1 <= (write_varlen v).length := by
  rw [write_varlen_length]; exact sizeof_varlen_pos v

/-- `read_varlen` on a 4-byte window starting with a whole VLQ. -/
theorem read_varlen_take4 (v : Nat) (hv : v < 2 ^ 28) (rest : List Nat) :
    read_varlen ((write_varlen v ++ rest).take 4) = v := by
  rw [List.take_append_eq_append_take,
    List.take_of_length_le (write_varlen_length_le v)]
  exact read_varlen_write_varlen_append v hv _

/-- `stream.read n` from a position splitting the data. -/
theorem stream_read_from (D pre rest : List Nat) (n : Nat) (h : D = pre ++ rest) :
    Stream.read ⟨D, pre.length⟩ n =
      (rest.take n, ⟨D, pre.length + (rest.take n).length⟩) := by
  simp [Stream.read, h, List.drop_left]

theorem take_len_of_le (rest : List Nat) (n : Nat) (h : n <= rest.length) :
    (rest.take n).length = n := by
  simp [List.length_take]
  omega

set_option maxRecDepth 4000 in
/-- Status-byte arithmetic over one byte. -/
theorem and240_eq (x : Nat) (h : x < 256) : x &&& 240 = x / 16 * 16 := by
  revert h
  revert x
  decide

set_option maxRecDepth 4000 in
theorem and128_of_ge (x : Nat) (h : x < 256) (h2 : 128 <= x) : x &&& 128 = 128 := by
  revert h2
  revert h
  revert x
  decide


theorem parse_channel_slice (endpos fuel : Nat) (ps : ParserState)
    (d base ch : Nat) (dataBytes : List Nat) (pre post : List Nat)
    (hD : ps.stream.data = pre ++ (write_varlen d ++ (base + ch) :: dataBytes) ++ post)
    (hpos : ps.stream.pos = pre.length)
    (hd : d < 2 ^ 28)
    (hbase : base = 0x80 ∨ base = 0x90 ∨ base = 0xB0 ∨ base = 0xC0 ∨ base = 0xD0 ∨
      base = 0xE0)
    (hch : ch < 16)
    (hsize : channel_data_sizes base = dataBytes.length)
    (hlen4 : 4 ≤ 1 + dataBytes.length + post.length)
    (hend : pre.length < endpos) :
    parse_track_go endpos (fuel + 1) ps =
      parse_track_go endpos fuel
        { ps with
          stream := ⟨ps.stream.data,
            pre.length + (write_varlen d).length + 1 + dataBytes.length⟩,
          running_status := some (base + ch),
          trace := (ps.trace ++ (if d > 0 then [HMsg.update_ticks d] else [])) ++
            [HMsg.channel_message_event
              ⟨base, ps.current_track.getD 0, none, dataBytes.length, dataBytes,
                some ch⟩] } := by
  have hs256 : base + ch < 256 := by rcases hbase with h|h|h|h|h|h <;> omega
  have hstream : ps.stream = ⟨pre ++ (write_varlen d ++ (base + ch) :: dataBytes) ++ post,
      pre.length⟩ := by
    cases hps : ps.stream with
    | mk dd pp =>
      rw [hps] at hD hpos
      simp at hD hpos
      simp [hD, hpos]
  have ha : pre ++ (write_varlen d ++ (base + ch) :: dataBytes) ++ post =
      pre ++ (write_varlen d ++ ((base + ch) :: (dataBytes ++ post))) := by
    simp [List.append_assoc]
  have e1 : Stream.read ⟨pre ++ (write_varlen d ++ (base + ch) :: dataBytes) ++ post,
      pre.length⟩ 4 =
      ((write_varlen d ++ ((base + ch) :: (dataBytes ++ post))).take 4,
       ⟨pre ++ (write_varlen d ++ (base + ch) :: dataBytes) ++ post, pre.length + 4⟩) := by
    rw [stream_read_from _ pre (write_varlen d ++ ((base + ch) :: (dataBytes ++ post))) 4 ha]
    rw [take_len_of_le]
    have := write_varlen_length_pos d
    simp
    omega
  have e2 : read_varlen ((write_varlen d ++ ((base + ch) :: (dataBytes ++ post))).take 4) = d :=
    read_varlen_take4 d hd _
  have e3 : Stream.seek ⟨pre ++ (write_varlen d ++ (base + ch) :: dataBytes) ++ post,
        pre.length + 4⟩ ((sizeof_varlen d : Int) - 4) =
      ⟨pre ++ (write_varlen d ++ (base + ch) :: dataBytes) ++ post,
       pre.length + (write_varlen d).length⟩ := by
    simp only [Stream.seek, write_varlen_length]
    have h1 := sizeof_varlen_pos d
    have h4 := sizeof_varlen_le_four d
    congr 1
    omega
  have hb : pre ++ (write_varlen d ++ (base + ch) :: dataBytes) ++ post =
      (pre ++ write_varlen d) ++ ((base + ch) :: (dataBytes ++ post)) := by
    simp [List.append_assoc]
  have e4 : Stream.read ⟨pre ++ (write_varlen d ++ (base + ch) :: dataBytes) ++ post,
        pre.length + (write_varlen d).length⟩ 1 =
      ([base + ch],
       ⟨pre ++ (write_varlen d ++ (base + ch) :: dataBytes) ++ post,
        pre.length + (write_varlen d).length + 1⟩) := by
    have h := stream_read_from _ (pre ++ write_varlen d) ((base + ch) :: (dataBytes ++ post)) 1 hb
    simp only [List.length_append] at h
    rw [h]
    simp
  have h128 : ((base + ch) &&& 0x80 ≠ 0) := by
    rw [and128_of_ge _ hs256 (by rcases hbase with h|h|h|h|h|h <;> omega)]
    omega
  have hc : pre ++ (write_varlen d ++ (base + ch) :: dataBytes) ++ post =
      (pre ++ write_varlen d ++ [base + ch]) ++ (dataBytes ++ post) := by
    simp [List.append_assoc]
  have e5 : Stream.read ⟨pre ++ (write_varlen d ++ (base + ch) :: dataBytes) ++ post,
        pre.length + (write_varlen d).length + 1⟩ dataBytes.length =
      (dataBytes,
       ⟨pre ++ (write_varlen d ++ (base + ch) :: dataBytes) ++ post,
        pre.length + (write_varlen d).length + 1 + dataBytes.length⟩) := by
    have h := stream_read_from _ (pre ++ write_varlen d ++ [base + ch]) (dataBytes ++ post)
      dataBytes.length hc
    simp only [List.length_append, List.length_cons, List.length_nil] at h
    rw [show pre.length + (write_varlen d).length + 1 =
      pre.length + ((write_varlen d).length + (0 + 1)) from by omega] at h ⊢
    rw [h, List.take_left]
  have hnib : (base + ch) &&& 0xF0 = base := by
    rw [and240_eq _ hs256]
    rcases hbase with h|h|h|h|h|h <;> omega
  have hlow : (base + ch) &&& 0xF = ch := by
    rw [and15_eq_mod]
    omega
  have hm1 : ¬(base + ch = META_EVENT) := by simp only [META_EVENT]; omega
  have hm2 : ¬(base + ch = SYSTEM_EXCLUSIVE) := by simp only [SYSTEM_EXCLUSIVE]; omega
  have hm3 : ¬(base + ch = END_OF_EXCLUSIVE) := by simp only [END_OF_EXCLUSIVE]; omega
  have hm4 : ¬(0xF1 ≤ base + ch ∧ base + ch ≤ 0xFE) := by omega
  simp only [parse_track_go]
  rw [hstream]
  simp only [e1, e2, e3, e4]
  rw [if_pos hend, if_pos h128]
  simp only [parse_track_event]
  rw [if_neg hm1, if_neg hm2, if_neg hm3, if_neg hm4]
  simp only [hnib, hlow, hsize, e5]

theorem parse_meta_slice (endpos fuel : Nat) (ps : ParserState)
    (d mt : Nat) (payload pre post : List Nat)
    (hD : ps.stream.data =
      pre ++ (write_varlen d ++
        (META_EVENT :: mt :: (write_varlen payload.length ++ payload))) ++ post)
    (hpos : ps.stream.pos = pre.length)
    (hd : d < 2 ^ 28)
    (hplen : payload.length < 2 ^ 28)
    (hlen4 : 4 ≤ (write_varlen payload.length).length + payload.length + post.length)
    (hend : pre.length < endpos) :
    parse_track_go endpos (fuel + 1) ps =
      parse_track_go endpos fuel
        { ps with
          stream := ⟨ps.stream.data,
            pre.length + (write_varlen d).length + 2 +
              (write_varlen payload.length).length + payload.length⟩,
          running_status := none,
          trace := (ps.trace ++ (if d > 0 then [HMsg.update_ticks d] else [])) ++
            [HMsg.meta_event
              ⟨META_EVENT, ps.current_track.getD 0, some mt, payload.length, payload,
                none⟩] } := by
  have hstream : ps.stream = ⟨pre ++ (write_varlen d ++
      (META_EVENT :: mt :: (write_varlen payload.length ++ payload))) ++ post,
      pre.length⟩ := by
    cases hps : ps.stream with
    | mk dd pp =>
      rw [hps] at hD hpos
      simp at hD hpos
      simp [hD, hpos]
  have ha : pre ++ (write_varlen d ++
      (META_EVENT :: mt :: (write_varlen payload.length ++ payload))) ++ post =
      pre ++ (write_varlen d ++
        (META_EVENT :: mt :: (write_varlen payload.length ++ payload) ++ post)) := by
    simp [List.append_assoc]
  have e1 : Stream.read ⟨pre ++ (write_varlen d ++
      (META_EVENT :: mt :: (write_varlen payload.length ++ payload))) ++ post,
      pre.length⟩ 4 =
      ((write_varlen d ++
        (META_EVENT :: mt :: (write_varlen payload.length ++ payload) ++ post)).take 4,
       ⟨pre ++ (write_varlen d ++
        (META_EVENT :: mt :: (write_varlen payload.length ++ payload))) ++ post,
        pre.length + 4⟩) := by
    rw [stream_read_from _ pre _ 4 ha]
    rw [take_len_of_le]
    have := write_varlen_length_pos d
    have := write_varlen_length_pos payload.length
    simp
    omega
  have e2 : read_varlen ((write_varlen d ++
      (META_EVENT :: mt :: (write_varlen payload.length ++ payload) ++ post)).take 4) = d :=
    read_varlen_take4 d hd _
  have e3 : Stream.seek ⟨pre ++ (write_varlen d ++
        (META_EVENT :: mt :: (write_varlen payload.length ++ payload))) ++ post,
        pre.length + 4⟩ ((sizeof_varlen d : Int) - 4) =
      ⟨pre ++ (write_varlen d ++
        (META_EVENT :: mt :: (write_varlen payload.length ++ payload))) ++ post,
       pre.length + (write_varlen d).length⟩ := by
    simp only [Stream.seek, write_varlen_length]
    have h1 := sizeof_varlen_pos d
    have h4 := sizeof_varlen_le_four d
    congr 1
    omega
  have hb : pre ++ (write_varlen d ++
      (META_EVENT :: mt :: (write_varlen payload.length ++ payload))) ++ post =
      (pre ++ write_varlen d) ++
        (META_EVENT :: (mt :: (write_varlen payload.length ++ payload) ++ post)) := by
    simp [List.append_assoc]
  have e4 : Stream.read ⟨pre ++ (write_varlen d ++
        (META_EVENT :: mt :: (write_varlen payload.length ++ payload))) ++ post,
        pre.length + (write_varlen d).length⟩ 1 =
      ([META_EVENT],
       ⟨pre ++ (write_varlen d ++
        (META_EVENT :: mt :: (write_varlen payload.length ++ payload))) ++ post,
        pre.length + (write_varlen d).length + 1⟩) := by
    have h := stream_read_from _ (pre ++ write_varlen d)
      (META_EVENT :: (mt :: (write_varlen payload.length ++ payload) ++ post)) 1 hb
    simp only [List.length_append] at h
    rw [h]
    simp
  have h128 : (META_EVENT &&& 0x80 ≠ 0) := by decide
  have hc : pre ++ (write_varlen d ++
      (META_EVENT :: mt :: (write_varlen payload.length ++ payload))) ++ post =
      (pre ++ write_varlen d ++ [META_EVENT]) ++
        (mt :: ((write_varlen payload.length ++ payload) ++ post)) := by
    simp [List.append_assoc]
  have e5 : Stream.read ⟨pre ++ (write_varlen d ++
        (META_EVENT :: mt :: (write_varlen payload.length ++ payload))) ++ post,
        pre.length + (write_varlen d).length + 1⟩ 1 =
      ([mt],
       ⟨pre ++ (write_varlen d ++
        (META_EVENT :: mt :: (write_varlen payload.length ++ payload))) ++ post,
        pre.length + (write_varlen d).length + 1 + 1⟩) := by
    have h := stream_read_from _ (pre ++ write_varlen d ++ [META_EVENT])
      (mt :: ((write_varlen payload.length ++ payload) ++ post)) 1 hc
    simp only [List.length_append, List.length_cons, List.length_nil] at h
    rw [show pre.length + (write_varlen d).length + 1 =
      pre.length + ((write_varlen d).length + (0 + 1)) from by omega] at h ⊢
    rw [h]
    simp
  have hdd : pre ++ (write_varlen d ++
      (META_EVENT :: mt :: (write_varlen payload.length ++ payload))) ++ post =
      (pre ++ write_varlen d ++ [META_EVENT, mt]) ++
        (write_varlen payload.length ++ (payload ++ post)) := by
    simp [List.append_assoc]
  have e6 : Stream.read ⟨pre ++ (write_varlen d ++
        (META_EVENT :: mt :: (write_varlen payload.length ++ payload))) ++ post,
        pre.length + (write_varlen d).length + 1 + 1⟩ 4 =
      ((write_varlen payload.length ++ (payload ++ post)).take 4,
       ⟨pre ++ (write_varlen d ++
        (META_EVENT :: mt :: (write_varlen payload.length ++ payload))) ++ post,
        pre.length + (write_varlen d).length + 1 + 1 + 4⟩) := by
    have h := stream_read_from _ (pre ++ write_varlen d ++ [META_EVENT, mt])
      (write_varlen payload.length ++ (payload ++ post)) 4 hdd
    simp only [List.length_append, List.length_cons, List.length_nil] at h
    rw [show pre.length + (write_varlen d).length + 1 + 1 =
      pre.length + ((write_varlen d).length + (0 + 1 + 1)) from by omega] at h ⊢
    rw [h, take_len_of_le]
    simp
    have := write_varlen_length_pos payload.length
    have := write_varlen_length_le payload.length
    simp
    omega
  have e7 : read_varlen ((write_varlen payload.length ++ (payload ++ post)).take 4) =
      payload.length :=
    read_varlen_take4 payload.length hplen _
  have e8 : Stream.seek ⟨pre ++ (write_varlen d ++
        (META_EVENT :: mt :: (write_varlen payload.length ++ payload))) ++ post,
        pre.length + (write_varlen d).length + 1 + 1 + 4⟩
        ((sizeof_varlen payload.length : Int) -
          (((write_varlen payload.length ++ (payload ++ post)).take 4).length : Int)) =
      ⟨pre ++ (write_varlen d ++
        (META_EVENT :: mt :: (write_varlen payload.length ++ payload))) ++ post,
       pre.length + (write_varlen d).length + 2 + (write_varlen payload.length).length⟩ := by
    rw [take_len_of_le]
    · simp only [Stream.seek, write_varlen_length]
      have h1 := sizeof_varlen_pos payload.length
      have h4 := sizeof_varlen_le_four payload.length
      congr 1
      omega
    · have := write_varlen_length_pos payload.length
      simp
      omega
  have hee : pre ++ (write_varlen d ++
      (META_EVENT :: mt :: (write_varlen payload.length ++ payload))) ++ post =
      (pre ++ write_varlen d ++ [META_EVENT, mt] ++ write_varlen payload.length) ++
        (payload ++ post) := by
    simp [List.append_assoc]
  have e9 : Stream.read ⟨pre ++ (write_varlen d ++
        (META_EVENT :: mt :: (write_varlen payload.length ++ payload))) ++ post,
        pre.length + (write_varlen d).length + 2 + (write_varlen payload.length).length⟩
        payload.length =
      (payload,
       ⟨pre ++ (write_varlen d ++
        (META_EVENT :: mt :: (write_varlen payload.length ++ payload))) ++ post,
        pre.length + (write_varlen d).length + 2 + (write_varlen payload.length).length +
          payload.length⟩) := by
    have h := stream_read_from _
      (pre ++ write_varlen d ++ [META_EVENT, mt] ++ write_varlen payload.length)
      (payload ++ post) payload.length hee
    simp only [List.length_append, List.length_cons, List.length_nil] at h
    rw [show pre.length + (write_varlen d).length + 2 + (write_varlen payload.length).length =
      pre.length + ((write_varlen d).length + (0 + 1 + 1) +
        (write_varlen payload.length).length) from by omega] at h ⊢
    rw [h, List.take_left]
  simp only [parse_track_go]
  rw [hstream]
  simp only [e1, e2, e3, e4]
  rw [if_pos hend, if_pos h128]
  simp only [parse_track_event]
  simp only [e5]
  simp only [read_event_data, e6, e7, e8, e9, if_true]

theorem parse_eot_slice (endpos fuel : Nat) (ps : ParserState)
    (eotd : Nat) (pre post : List Nat)
    (hD : ps.stream.data =
      pre ++ (write_varlen eotd ++ [META_EVENT, END_OF_TRACK, 0]) ++ post)
    (hpos : ps.stream.pos = pre.length)
    (hd : eotd < 2 ^ 28)
    (hend : pre.length < endpos) :
    parse_track_go endpos (fuel + 1) ps =
      parse_track_go endpos fuel
        { ps with
          stream := ⟨ps.stream.data, pre.length + (write_varlen eotd).length + 3⟩,
          running_status := none,
          trace := (ps.trace ++ (if eotd > 0 then [HMsg.update_ticks eotd] else [])) ++
            [HMsg.meta_event
              ⟨META_EVENT, ps.current_track.getD 0, some END_OF_TRACK, 0, [], none⟩] } := by
  have hstream : ps.stream = ⟨pre ++ (write_varlen eotd ++ [META_EVENT, END_OF_TRACK, 0]) ++
      post, pre.length⟩ := by
    cases hps : ps.stream with
    | mk dd pp =>
      rw [hps] at hD hpos
      simp at hD hpos
      simp [hD, hpos]
  have ha : pre ++ (write_varlen eotd ++ [META_EVENT, END_OF_TRACK, 0]) ++ post =
      pre ++ (write_varlen eotd ++
        (META_EVENT :: END_OF_TRACK :: 0 :: post)) := by
    simp [List.append_assoc]
  have e1 : Stream.read ⟨pre ++ (write_varlen eotd ++ [META_EVENT, END_OF_TRACK, 0]) ++ post,
      pre.length⟩ 4 =
      ((write_varlen eotd ++ (META_EVENT :: END_OF_TRACK :: 0 :: post)).take 4,
       ⟨pre ++ (write_varlen eotd ++ [META_EVENT, END_OF_TRACK, 0]) ++ post,
        pre.length + 4⟩) := by
    rw [stream_read_from _ pre _ 4 ha]
    rw [take_len_of_le]
    have := write_varlen_length_pos eotd
    simp
    omega
  have e2 : read_varlen ((write_varlen eotd ++
      (META_EVENT :: END_OF_TRACK :: 0 :: post)).take 4) = eotd :=
    read_varlen_take4 eotd hd _
  have e3 : Stream.seek ⟨pre ++ (write_varlen eotd ++ [META_EVENT, END_OF_TRACK, 0]) ++ post,
        pre.length + 4⟩ ((sizeof_varlen eotd : Int) - 4) =
      ⟨pre ++ (write_varlen eotd ++ [META_EVENT, END_OF_TRACK, 0]) ++ post,
       pre.length + (write_varlen eotd).length⟩ := by
    simp only [Stream.seek, write_varlen_length]
    have h1 := sizeof_varlen_pos eotd
    have h4 := sizeof_varlen_le_four eotd
    congr 1
    omega
  have hb : pre ++ (write_varlen eotd ++ [META_EVENT, END_OF_TRACK, 0]) ++ post =
      (pre ++ write_varlen eotd) ++ (META_EVENT :: (END_OF_TRACK :: 0 :: post)) := by
    simp [List.append_assoc]
  have e4 : Stream.read ⟨pre ++ (write_varlen eotd ++ [META_EVENT, END_OF_TRACK, 0]) ++ post,
        pre.length + (write_varlen eotd).length⟩ 1 =
      ([META_EVENT],
       ⟨pre ++ (write_varlen eotd ++ [META_EVENT, END_OF_TRACK, 0]) ++ post,
        pre.length + (write_varlen eotd).length + 1⟩) := by
    have h := stream_read_from _ (pre ++ write_varlen eotd)
      (META_EVENT :: (END_OF_TRACK :: 0 :: post)) 1 hb
    simp only [List.length_append] at h
    rw [h]
    simp
  have h128 : (META_EVENT &&& 0x80 ≠ 0) := by decide
  have hc : pre ++ (write_varlen eotd ++ [META_EVENT, END_OF_TRACK, 0]) ++ post =
      (pre ++ write_varlen eotd ++ [META_EVENT]) ++ (END_OF_TRACK :: (0 :: post)) := by
    simp [List.append_assoc]
  have e5 : Stream.read ⟨pre ++ (write_varlen eotd ++ [META_EVENT, END_OF_TRACK, 0]) ++ post,
        pre.length + (write_varlen eotd).length + 1⟩ 1 =
      ([END_OF_TRACK],
       ⟨pre ++ (write_varlen eotd ++ [META_EVENT, END_OF_TRACK, 0]) ++ post,
        pre.length + (write_varlen eotd).length + 1 + 1⟩) := by
    have h := stream_read_from _ (pre ++ write_varlen eotd ++ [META_EVENT])
      (END_OF_TRACK :: (0 :: post)) 1 hc
    simp only [List.length_append, List.length_cons, List.length_nil] at h
    rw [show pre.length + (write_varlen eotd).length + 1 =
      pre.length + ((write_varlen eotd).length + (0 + 1)) from by omega] at h ⊢
    rw [h]
    simp
  have hdd : pre ++ (write_varlen eotd ++ [META_EVENT, END_OF_TRACK, 0]) ++ post =
      (pre ++ write_varlen eotd ++ [META_EVENT, END_OF_TRACK]) ++ (0 :: post) := by
    simp [List.append_assoc]
  have e6 : Stream.read ⟨pre ++ (write_varlen eotd ++ [META_EVENT, END_OF_TRACK, 0]) ++ post,
        pre.length + (write_varlen eotd).length + 1 + 1⟩ 4 =
      (0 :: post.take 3,
       ⟨pre ++ (write_varlen eotd ++ [META_EVENT, END_OF_TRACK, 0]) ++ post,
        pre.length + (write_varlen eotd).length + 1 + 1 + (1 + (post.take 3).length)⟩) := by
    have h := stream_read_from _ (pre ++ write_varlen eotd ++ [META_EVENT, END_OF_TRACK])
      (0 :: post) 4 hdd
    simp only [List.length_append, List.length_cons, List.length_nil] at h
    rw [show pre.length + (write_varlen eotd).length + 1 + 1 =
      pre.length + ((write_varlen eotd).length + (0 + 1 + 1)) from by omega] at h ⊢
    rw [h]
    simp [List.take_cons]
    omega
  have e7 : ∀ X : List Nat, read_varlen (0 :: X) = 0 := fun _ => rfl
  have e8 : Stream.seek ⟨pre ++ (write_varlen eotd ++ [META_EVENT, END_OF_TRACK, 0]) ++ post,
        pre.length + (write_varlen eotd).length + 1 + 1 + (1 + (post.take 3).length)⟩
        ((sizeof_varlen 0 : Int) - ((0 :: post.take 3).length : Int)) =
      ⟨pre ++ (write_varlen eotd ++ [META_EVENT, END_OF_TRACK, 0]) ++ post,
       pre.length + (write_varlen eotd).length + 3⟩ := by
    simp only [Stream.seek, List.length_cons]
    congr 1
    have : (post.take 3).length ≤ 3 := by simp
    show ((pre.length + (write_varlen eotd).length + 1 + 1 + (1 + (post.take 3).length) : Int) +
      ((1 : Int) - ((post.take 3).length + 1 : Int))).toNat = _
    omega
  have e9 : ∀ D : List Nat, Stream.read ⟨D, pre.length + (write_varlen eotd).length + 3⟩ 0 =
      ([], ⟨D, pre.length + (write_varlen eotd).length + 3⟩) := by
    intro D
    simp [Stream.read]
  simp only [parse_track_go]
  rw [hstream]
  simp only [e1, e2, e3, e4]
  rw [if_pos hend, if_pos h128]
  simp only [parse_track_event]
  simp only [e5]
  simp only [read_event_data, e6, e7, e8, e9, if_true]

/-- Helper: once the loop position reaches `endpos`, the loop stops. -/
theorem parse_track_go_done (endpos f : Nat) (ps : ParserState)
    (h : ¬ ps.stream.pos < endpos) : parse_track_go endpos f ps = .ok ps := by
  cases f <;> simp [parse_track_go, h]

/-- The track loop over a serialized event list followed by the
end-of-track event: dispatches exactly the per-event callbacks and stops
at the chunk end. -/
theorem parse_track_loop (evts : List (Nat × TrackEvt)) :
    ∀ (eotd fuel endpos : Nat) (pre post : List Nat) (ps : ParserState),
    ps.stream.data = pre ++ ((evts.map fun de => sliceBytes de.1 de.2).flatten ++
      write_varlen eotd ++ [META_EVENT, END_OF_TRACK, 0]) ++ post →
    ps.stream.pos = pre.length →
    endpos = pre.length + ((evts.map fun de => sliceBytes de.1 de.2).flatten ++
      write_varlen eotd ++ [META_EVENT, END_OF_TRACK, 0]).length →
    (∀ de ∈ evts, de.1 < 2 ^ 28 ∧ ValidEvt de.2) →
    eotd < 2 ^ 28 →
    evts.length + 1 ≤ fuel →
    parse_track_go endpos fuel ps = .ok
      { ps with
        stream := ⟨ps.stream.data, endpos⟩,
        running_status := none,
        trace := ps.trace ++
          ((evts.map (sliceMsgs (ps.current_track.getD 0))).flatten ++
            ((if eotd > 0 then [HMsg.update_ticks eotd] else []) ++
              [HMsg.meta_event
                ⟨META_EVENT, ps.current_track.getD 0, some END_OF_TRACK, 0, [], none⟩])) } := by
  induction evts with
  | nil =>
    intro eotd fuel endpos pre post ps hD hpos hendpos hval heot hfuel
    cases fuel with
    | zero => simp at hfuel
    | succ f =>
      have hlen3 : ((List.map (fun de => sliceBytes de.1 de.2)
          ([] : List (Nat × TrackEvt))).flatten ++
          write_varlen eotd ++ [META_EVENT, END_OF_TRACK, 0]).length =
          (write_varlen eotd).length + 3 := by simp
      rw [hlen3] at hendpos
      have hwv := write_varlen_length_pos eotd
      have hD' : ps.stream.data =
          pre ++ (write_varlen eotd ++ [META_EVENT, END_OF_TRACK, 0]) ++ post := by
        rw [hD]; simp
      rw [parse_eot_slice endpos f ps eotd pre post hD' hpos heot (by omega)]
      rw [parse_track_go_done endpos f _ (by simp; omega)]
      rw [hendpos]
      simp [List.append_assoc, Nat.add_assoc]
  | cons de rest ih =>
    intro eotd fuel endpos pre post ps hD hpos hendpos hval heot hfuel
    cases fuel with
    | zero => simp at hfuel
    | succ f =>
      obtain ⟨d, e⟩ := de
      have hdval := hval (d, e) (List.mem_cons_self _ _)
      have hvalrest : ∀ x ∈ rest, x.1 < 2 ^ 28 ∧ ValidEvt x.2 :=
        fun x hx => hval x (List.mem_cons_of_mem _ hx)
      have hrestfuel : rest.length + 1 ≤ f := by simp at hfuel; omega
      have hend : pre.length < endpos := by
        have h1 := write_varlen_length_pos d
        have h2 := write_varlen_length_pos eotd
        simp only [hendpos, List.map_cons, List.flatten_cons, List.length_append,
          List.length_cons, List.length_nil, sliceBytes]
        omega
      cases e with
    | noteOff ch n v =>
      obtain ⟨hch, hn, hv⟩ := hdval.2
      have hD' : ps.stream.data = pre ++ (write_varlen d ++ (NOTE_OFF + ch) :: [n, v]) ++
          ((rest.map fun x => sliceBytes x.1 x.2).flatten ++ write_varlen eotd ++
            [META_EVENT, END_OF_TRACK, 0] ++ post) := by
        rw [hD]; simp [sliceBytes, evtBytes, List.append_assoc]
      rw [parse_channel_slice endpos f ps d NOTE_OFF ch [n, v] pre _ hD' hpos hdval.1
        (by decide) hch (by rfl)
        (by simp; omega) hend]
      rw [ih eotd f endpos (pre ++ sliceBytes d (.noteOff ch n v)) post _
        (by rw [hD]; simp [sliceBytes, evtBytes, List.append_assoc])
        (by simp [sliceBytes, evtBytes]; omega)
        (by rw [hendpos]; simp [sliceBytes, evtBytes, List.length_append]; omega)
        hvalrest heot hrestfuel]
      simp [sliceMsgs, evtMsg, List.append_assoc]
    | noteOn ch n v =>
      obtain ⟨hch, hn, hv, hv0⟩ := hdval.2
      have hD' : ps.stream.data = pre ++ (write_varlen d ++ (NOTE_ON + ch) :: [n, v]) ++
          ((rest.map fun x => sliceBytes x.1 x.2).flatten ++ write_varlen eotd ++
            [META_EVENT, END_OF_TRACK, 0] ++ post) := by
        rw [hD]; simp [sliceBytes, evtBytes, List.append_assoc]
      rw [parse_channel_slice endpos f ps d NOTE_ON ch [n, v] pre _ hD' hpos hdval.1
        (by decide) hch (by rfl)
        (by simp; omega) hend]
      rw [ih eotd f endpos (pre ++ sliceBytes d (.noteOn ch n v)) post _
        (by rw [hD]; simp [sliceBytes, evtBytes, List.append_assoc])
        (by simp [sliceBytes, evtBytes]; omega)
        (by rw [hendpos]; simp [sliceBytes, evtBytes, List.length_append]; omega)
        hvalrest heot hrestfuel]
      simp [sliceMsgs, evtMsg, List.append_assoc]
    | ctrl ch c v =>
      obtain ⟨hch, hc, hv⟩ := hdval.2
      have hD' : ps.stream.data = pre ++ (write_varlen d ++ (CONTROLLER_CHANGE + ch) :: [c, v]) ++
          ((rest.map fun x => sliceBytes x.1 x.2).flatten ++ write_varlen eotd ++
            [META_EVENT, END_OF_TRACK, 0] ++ post) := by
        rw [hD]; simp [sliceBytes, evtBytes, List.append_assoc]
      rw [parse_channel_slice endpos f ps d CONTROLLER_CHANGE ch [c, v] pre _ hD' hpos hdval.1
        (by decide) hch (by rfl)
        (by simp; omega) hend]
      rw [ih eotd f endpos (pre ++ sliceBytes d (.ctrl ch c v)) post _
        (by rw [hD]; simp [sliceBytes, evtBytes, List.append_assoc])
        (by simp [sliceBytes, evtBytes]; omega)
        (by rw [hendpos]; simp [sliceBytes, evtBytes, List.length_append]; omega)
        hvalrest heot hrestfuel]
      simp [sliceMsgs, evtMsg, List.append_assoc]
    | prog ch p =>
      obtain ⟨hch, hp⟩ := hdval.2
      have hD' : ps.stream.data = pre ++ (write_varlen d ++ (PROGRAM_CHANGE + ch) :: [p]) ++
          ((rest.map fun x => sliceBytes x.1 x.2).flatten ++ write_varlen eotd ++
            [META_EVENT, END_OF_TRACK, 0] ++ post) := by
        rw [hD]; simp [sliceBytes, evtBytes, List.append_assoc]
      rw [parse_channel_slice endpos f ps d PROGRAM_CHANGE ch [p] pre _ hD' hpos hdval.1
        (by decide) hch (by rfl)
        (by simp; omega) hend]
      rw [ih eotd f endpos (pre ++ sliceBytes d (.prog ch p)) post _
        (by rw [hD]; simp [sliceBytes, evtBytes, List.append_assoc])
        (by simp [sliceBytes, evtBytes]; omega)
        (by rw [hendpos]; simp [sliceBytes, evtBytes, List.length_append]; omega)
        hvalrest heot hrestfuel]
      simp [sliceMsgs, evtMsg, List.append_assoc]
    | bend ch d1 d2 =>
      obtain ⟨hch, hd1, hd2, hd1e⟩ := hdval.2
      have hD' : ps.stream.data = pre ++ (write_varlen d ++ (PITCH_BEND + ch) :: [d1, d2]) ++
          ((rest.map fun x => sliceBytes x.1 x.2).flatten ++ write_varlen eotd ++
            [META_EVENT, END_OF_TRACK, 0] ++ post) := by
        rw [hD]; simp [sliceBytes, evtBytes, List.append_assoc]
      rw [parse_channel_slice endpos f ps d PITCH_BEND ch [d1, d2] pre _ hD' hpos hdval.1
        (by decide) hch (by rfl)
        (by simp; omega) hend]
      rw [ih eotd f endpos (pre ++ sliceBytes d (.bend ch d1 d2)) post _
        (by rw [hD]; simp [sliceBytes, evtBytes, List.append_assoc])
        (by simp [sliceBytes, evtBytes]; omega)
        (by rw [hendpos]; simp [sliceBytes, evtBytes, List.length_append]; omega)
        hvalrest heot hrestfuel]
      simp [sliceMsgs, evtMsg, List.append_assoc]
    | metaEvt mt payload =>
      obtain ⟨hmt, hbytes, hplen, hmok⟩ := hdval.2
      have hD' : ps.stream.data = pre ++ (write_varlen d ++
          (META_EVENT :: mt :: (write_varlen payload.length ++ payload))) ++
          ((rest.map fun x => sliceBytes x.1 x.2).flatten ++ write_varlen eotd ++
            [META_EVENT, END_OF_TRACK, 0] ++ post) := by
        rw [hD]; simp [sliceBytes, evtBytes, List.append_assoc]
      rw [parse_meta_slice endpos f ps d mt payload pre _ hD' hpos hdval.1 hplen
        (by
          have := write_varlen_length_pos eotd
          simp [List.length_append]
          omega) hend]
      rw [ih eotd f endpos (pre ++ sliceBytes d (.metaEvt mt payload)) post _
        (by rw [hD]; simp [sliceBytes, evtBytes, List.append_assoc])
        (by simp [sliceBytes, evtBytes]; omega)
        (by rw [hendpos]; simp [sliceBytes, evtBytes, List.length_append]; omega)
        hvalrest heot hrestfuel]
      simp [sliceMsgs, evtMsg, List.append_assoc]

/-- Each serialized event slice is at least one byte, so the slice count
bounds the body length. -/
theorem slices_length_ge (l : List (Nat × TrackEvt)) :
    l.length ≤ ((l.map fun de => sliceBytes de.1 de.2).flatten).length := by
  induction l with
  | nil => simp
  | cons x xs ih =>
    have := write_varlen_length_pos x.1
    simp only [List.map_cons, List.flatten_cons, List.length_cons, List.length_append,
      sliceBytes] at ih ⊢
    omega

/-- 4-byte big-endian round trip. -/
theorem read_bew_write_bew4 (n : Nat) (h : n < 2 ^ 32) :
    read_bew (write_bew n 4) = some n := by
  simp [read_bew, write_bew]
  omega

/-- 2-byte big-endian round trip. -/
theorem read_bew_write_bew2 (n : Nat) (h : n < 2 ^ 16) :
    read_bew (write_bew n 2) = some n := by
  simp [read_bew, write_bew]
  omega

/-- `write_bew _ 4` always yields four bytes. -/
theorem write_bew_length4 (n : Nat) : (write_bew n 4).length = 4 := by rfl

/-- `write_bew _ 2` always yields two bytes. -/
theorem write_bew_length2 (n : Nat) : (write_bew n 2).length = 2 := by rfl

/-- Running `parse_track` on a valid serialized track chunk body succeeds
and dispatches exactly `trackMsgs`. -/
theorem parse_track_run (t : TrackSpec) (ps : ParserState) (tk : Nat)
    (pre post : List Nat)
    (hD : ps.stream.data = pre ++ trackBody t ++ post)
    (hpos : ps.stream.pos = pre.length)
    (htk : (match ps.current_track with | none => 0 | some x => x + 1) = tk)
    (htlt : tk < ps.num_tracks)
    (hval : ValidTrack t) :
    parse_track ps TRACK_HEADER (trackBody t).length = .ok
      { ps with
        stream := ⟨ps.stream.data, pre.length + (trackBody t).length⟩,
        current_track := some tk,
        running_status := none,
        sysex_continuation := false,
        trace := ps.trace ++ trackMsgs tk t } := by
  obtain ⟨hevts, heot, hb32⟩ := hval
  have hge : ¬ tk ≥ ps.num_tracks := by omega
  simp only [parse_track, htk]
  rw [if_neg (fun h => h rfl), if_neg (fun h => hge h.1), if_neg hge]
  rw [parse_track_loop t.events t.eot_delta ((trackBody t).length + 1)
    (ps.stream.pos + (trackBody t).length) pre post _
    (by simp only [hD]; rfl)
    (by simp only [hpos])
    (by simp only [hpos, trackBody])
    hevts heot
    (by
      have := slices_length_ge t.events
      simp only [trackBody, List.length_append, List.length_cons, List.length_nil]
      omega)]
  simp [trackMsgs, hpos, List.append_assoc]

/-- Taking exactly the length of the left part of an append yields it. -/
theorem take_append_of_length (a b : List Nat) (n : Nat) (h : a.length = n) :
    (a ++ b).take n = a := by
  subst h
  exact List.take_left a b

/-- The `parse_tracks` chunk loop over serialized `MTrk` chunks: each one
is parsed by `parse_track` and the loop stops with the `eof` callback at
the end of the data. -/
theorem parse_tracks_loop (ts : List TrackSpec) :
    ∀ (k fuel : Nat) (pre : List Nat) (ps : ParserState),
    ps.stream.data = pre ++ (ts.map chunkBytes).flatten →
    ps.stream.pos = pre.length →
    (match ps.current_track with | none => 0 | some x => x + 1) = k →
    k + ts.length ≤ ps.num_tracks →
    (∀ t ∈ ts, ValidTrack t) →
    ps.stream.data.length + 1 ≤ fuel + ps.stream.pos →
    ∃ ps2, parse_tracks_go fuel ps = .ok ps2 ∧
      ps2.trace = ps.trace ++
        ((((ts.enumFrom k)).map fun it => trackMsgs it.1 it.2).flatten ++ [HMsg.eof]) := by
  induction ts with
  | nil =>
    intro k fuel pre ps hD hpos hk hn hval hfuel
    have hD2 : ps.stream.data = pre := by simpa using hD
    cases fuel with
    | zero =>
      exfalso
      rw [hD2, hpos] at hfuel
      omega
    | succ f =>
      have e1 : ps.stream.read 4 = ([], ps.stream) := by
        simp [Stream.read, hD2, hpos]
        rw [← hpos, ← hD2]
      refine ⟨{ ps with trace := ps.trace ++ [HMsg.eof] }, ?_, by simp⟩
      simp only [parse_tracks_go, e1]
      simp
  | cons t ts ih =>
    intro k fuel pre ps hD hpos hk hn hval hfuel
    have hvt : ValidTrack t := hval t (List.mem_cons_self _ _)
    have hb32 : (trackBody t).length < 2 ^ 32 := hvt.2.2
    have hn' : k + (ts.length + 1) ≤ ps.num_tracks := by simpa using hn
    cases fuel with
    | zero =>
      exfalso
      rw [hD, hpos] at hfuel
      simp only [List.length_append] at hfuel
      omega
    | succ f =>
      have ha : ps.stream.data = pre ++ (TRACK_HEADER ++
          (write_bew (trackBody t).length 4 ++
            (trackBody t ++ (ts.map chunkBytes).flatten))) := by
        rw [hD]; simp [chunkBytes, List.append_assoc]
      have hstream : ps.stream = ⟨ps.stream.data, pre.length⟩ := by
        cases hps : ps.stream with
        | mk dd pp =>
          rw [hps] at hpos
          simp at hpos
          simp [hpos]
      have e1 : Stream.read ⟨ps.stream.data, pre.length⟩ 4 =
          (TRACK_HEADER, ⟨ps.stream.data, pre.length + 4⟩) := by
        rw [stream_read_from _ pre _ 4 ha]
        simp [TRACK_HEADER]
      have hb : ps.stream.data = (pre ++ TRACK_HEADER) ++
          (write_bew (trackBody t).length 4 ++
            (trackBody t ++ (ts.map chunkBytes).flatten)) := by
        rw [ha]; simp [List.append_assoc]
      have e2 : Stream.read ⟨ps.stream.data, pre.length + 4⟩ 4 =
          (write_bew (trackBody t).length 4, ⟨ps.stream.data, pre.length + 8⟩) := by
        have h := stream_read_from _ (pre ++ TRACK_HEADER) _ 4 hb
        rw [take_append_of_length _ _ 4 (write_bew_length4 _)] at h
        simp only [List.length_append, write_bew_length4] at h
        simp only [TRACK_HEADER] at h
        simp at h
        rw [h]
      have e3 : read_bew (write_bew (trackBody t).length 4) =
          some (trackBody t).length := read_bew_write_bew4 _ hb32
      have hc : ps.stream.data = (pre ++ TRACK_HEADER ++ write_bew (trackBody t).length 4) ++
          trackBody t ++ (ts.map chunkBytes).flatten := by
        rw [ha]; simp [List.append_assoc]
      have hpos8 : (pre.length + 8 : Nat) =
          (pre ++ TRACK_HEADER ++ write_bew (trackBody t).length 4).length := by
        simp [TRACK_HEADER, write_bew_length4, List.length_append]
      have e4 := parse_track_run t { ps with stream := ⟨ps.stream.data, pre.length + 8⟩ } k
        (pre ++ TRACK_HEADER ++ write_bew (trackBody t).length 4)
        ((ts.map chunkBytes).flatten) hc hpos8 hk (show k < ps.num_tracks by omega) hvt
      obtain ⟨ps2, hgo, htr⟩ := ih (k + 1) f (pre ++ chunkBytes t)
        { ps with
          stream := ⟨ps.stream.data,
            (pre ++ TRACK_HEADER ++ write_bew (trackBody t).length 4).length +
              (trackBody t).length⟩,
          current_track := some k,
          running_status := none,
          sysex_continuation := false,
          trace := ps.trace ++ trackMsgs k t }
        (by simp [hD, List.append_assoc])
        (by simp [chunkBytes, TRACK_HEADER, write_bew_length4, List.length_append]; omega)
        rfl
        (show k + 1 + ts.length ≤ ps.num_tracks by omega)
        (fun x hx => hval x (List.mem_cons_of_mem _ hx))
        (by
          simp only [List.length_append] at hfuel ⊢
          have h4 : TRACK_HEADER.length = 4 := by rfl
          rw [h4, write_bew_length4]
          omega)
      refine ⟨ps2, ?_, ?_⟩
      · simp only [parse_tracks_go]
        rw [hstream, e1]
        rw [if_neg (by decide : ¬ (TRACK_HEADER = ([] : List Nat)))]
        simp only [e2, e3]
        simp only [e4]
        exact hgo
      · rw [htr]
        simp [List.enumFrom_cons, List.append_assoc]

set_option maxRecDepth 4000 in
/-- A byte below 128 has bit 7 clear. -/
theorem and128_of_lt (x : Nat) (h : x < 128) : x &&& 128 = 0 := by
  revert h
  revert x
  decide

/-- Reading exactly the length of a known segment at its offset yields the
segment. -/
theorem stream_read_exact (D pre a rest : List Nat) (n p q : Nat)
    (h : D = pre ++ (a ++ rest)) (ha : a.length = n)
    (hp : p = pre.length) (hq : q = p + n) :
    Stream.read ⟨D, p⟩ n = (a, ⟨D, q⟩) := by
  subst hq
  subst hp
  rw [stream_read_from D pre (a ++ rest) n h]
  rw [take_append_of_length _ _ n ha, ha]

set_option maxHeartbeats 2000000 in
/-- `parse_header` on a serialized `FileSpec`: reads the `MThd` chunk and
dispatches the metrical `header` callback. -/
theorem parse_header_run (f : FileSpec) (strict : Bool)
    (hfmt : f.format < 2 ^ 16) (hnum : f.num_tracks < 2 ^ 16)
    (hdiv : f.division < 32768) (h0 : f.format = 0 → f.num_tracks ≤ 1) :
    parse_header { stream := ⟨fileBytes f, 0⟩, strict := strict } = .ok
      { stream := ⟨fileBytes f, 14⟩, strict := strict, format := f.format,
        num_tracks := f.num_tracks,
        trace := [HMsg.header f.format f.num_tracks true f.division 0xE7 0x28] } := by
  have e1 : Stream.read ⟨fileBytes f, 0⟩ 4 = (FILE_HEADER, ⟨fileBytes f, 4⟩) :=
    stream_read_exact _ [] _ (write_bew 6 4 ++ (write_bew f.format 2 ++ (write_bew f.num_tracks 2 ++ (write_bew f.division 2 ++ (f.tracks.map chunkBytes).flatten)))) 4 0 4
      (by simp [fileBytes, List.append_assoc]) rfl rfl rfl
  have e2 : Stream.read ⟨fileBytes f, 4⟩ 4 = (write_bew 6 4, ⟨fileBytes f, 8⟩) :=
    stream_read_exact _ FILE_HEADER _ (write_bew f.format 2 ++ (write_bew f.num_tracks 2 ++ (write_bew f.division 2 ++ (f.tracks.map chunkBytes).flatten))) 4 4 8
      (by simp [fileBytes, List.append_assoc]) rfl rfl rfl
  have e3 : Stream.read ⟨fileBytes f, 8⟩ 2 = (write_bew f.format 2, ⟨fileBytes f, 10⟩) :=
    stream_read_exact _ (FILE_HEADER ++ write_bew 6 4) _ (write_bew f.num_tracks 2 ++ (write_bew f.division 2 ++ (f.tracks.map chunkBytes).flatten)) 2 8 10
      (by simp [fileBytes, List.append_assoc]) (write_bew_length2 _) rfl rfl
  have e4 : Stream.read ⟨fileBytes f, 10⟩ 2 =
      (write_bew f.num_tracks 2, ⟨fileBytes f, 12⟩) :=
    stream_read_exact _ (FILE_HEADER ++ write_bew 6 4 ++ write_bew f.format 2) _ (write_bew f.division 2 ++ (f.tracks.map chunkBytes).flatten) 2 10 12
      (by simp [fileBytes, List.append_assoc]) (write_bew_length2 _)
      (by simp [FILE_HEADER, write_bew]) rfl
  have e5 : Stream.read ⟨fileBytes f, 12⟩ 2 =
      (write_bew f.division 2, ⟨fileBytes f, 14⟩) :=
    stream_read_exact _ (FILE_HEADER ++ write_bew 6 4 ++ write_bew f.format 2 ++
        write_bew f.num_tracks 2) _ ((f.tracks.map chunkBytes).flatten) 2 12 14
      (by simp [fileBytes, List.append_assoc]) (write_bew_length2 _)
      (by simp [FILE_HEADER, write_bew]) rfl
  have r1 : read_bew (write_bew 6 4) = some 6 := by decide
  have r2 := read_bew_write_bew2 f.format hfmt
  have r3 := read_bew_write_bew2 f.num_tracks hnum
  have ewb : write_bew f.division 2 = [f.division / 256 % 256, f.division % 256] := by
    simp [write_bew]
  have hand : f.division / 256 % 256 &&& 128 = 0 := and128_of_lt _ (by omega)
  have hdd : f.division / 256 % 256 * 256 + f.division % 256 = f.division := by omega
  have hno1 : ¬ (f.format = 0 ∧ f.num_tracks > 1 ∧ strict = true) := by
    rintro ⟨a, b, -⟩
    have := h0 a
    omega
  have hno2 : ¬ (f.format = 0 ∧ f.num_tracks > 1) := by
    rintro ⟨a, b⟩
    have := h0 a
    omega
  simp only [parse_header, e1]
  rw [if_neg (by decide : ¬ (FILE_HEADER = ([] : List Nat)))]
  rw [if_neg (fun h => h rfl)]
  simp only [e2, r1, e3, r2, e4, r3]
  rw [if_neg hno1, if_neg hno2]
  simp only [e5, ewb]
  simp only [hand]
  simp [read_bew, hdd]

/-- Parsing the serialized bytes of a valid `FileSpec` succeeds and
dispatches exactly `fileMsgs`. -/
theorem parse_file_msgs (f : FileSpec) (strict : Bool) (hv : ValidFile f) :
    ∃ ps2, parse_file strict (fileBytes f) = .ok ps2 ∧ ps2.trace = fileMsgs f := by
  obtain ⟨hfmt, hnum, hdiv, h0, hlen, hval⟩ := hv
  have hh := parse_header_run f strict hfmt hnum hdiv h0
  obtain ⟨ps2, hgo, htr⟩ := parse_tracks_loop f.tracks 0
    ((fileBytes f).length + 1 - 14)
    (FILE_HEADER ++ write_bew 6 4 ++ write_bew f.format 2 ++ write_bew f.num_tracks 2 ++
      write_bew f.division 2)
    { stream := ⟨fileBytes f, 14⟩, strict := strict, format := f.format,
      num_tracks := f.num_tracks,
      trace := [HMsg.header f.format f.num_tracks true f.division 0xE7 0x28] }
    (by simp [fileBytes, List.append_assoc])
    (by simp [FILE_HEADER, write_bew])
    rfl
    (show 0 + f.tracks.length ≤ f.num_tracks by omega)
    hval
    (by simp only []; omega)
  refine ⟨ps2, ?_, ?_⟩
  · simp only [parse_file, hh, parse_tracks]
    exact hgo
  · rw [htr]
    simp [fileMsgs, List.enum, List.append_assoc]

/-- The writer fold splits over an append. -/
theorem writer_run_append (a b : List HMsg) : ∀ s, writer_run s (a ++ b) =
    match writer_run s a with
    | none => none
    | some s2 => writer_run s2 b := by
  induction a with
  | nil =>
    intro s
    simp [writer_run]
  | cons m ms ih =>
    intro s
    simp only [List.cons_append, writer_run]
    cases writer_handle s m with
    | none => rfl
    | some s2 => exact ih s2

/-- The high pitch-bend byte round-trips through the writer's re-split. -/
theorem bend_hi (d1 d2 : Nat) (h1 : d1 < 128) (h2 : d2 < 128) :
    ((d1 <<< 7) + d2) >>> 7 &&& 255 = d1 := by
  rw [Nat.shiftLeft_eq, Nat.shiftRight_eq_div_pow, and255_eq_mod]
  have h7 : (2 : Nat) ^ 7 = 128 := by norm_num
  rw [h7]
  omega

/-- The low pitch-bend byte round-trips when the high byte is even. -/
theorem bend_lo (d1 d2 : Nat) (h1 : d1 < 128) (h2 : d2 < 128) (he : d1 % 2 = 0) :
    ((d1 <<< 7) + d2) &&& 255 = d2 := by
  rw [Nat.shiftLeft_eq, and255_eq_mod]
  have h7 : (2 : Nat) ^ 7 = 128 := by norm_num
  rw [h7]
  omega

/-- The three tempo bytes round-trip through the writer's re-split. -/
theorem tempo_bytes (b1 b2 b3 : Nat) (h1 : b1 < 256) (h2 : b2 < 256) (h3 : b3 < 256) :
    [((b1 <<< 16) + (b2 <<< 8) + b3) >>> 16 &&& 0xFF,
     ((b1 <<< 16) + (b2 <<< 8) + b3) >>> 8 &&& 0xFF,
     ((b1 <<< 16) + (b2 <<< 8) + b3) &&& 0xFF] = [b1, b2, b3] := by
  have e16 : (2 : Nat) ^ 16 = 65536 := by norm_num
  have e8 : (2 : Nat) ^ 8 = 256 := by norm_num
  simp only [Nat.shiftLeft_eq, Nat.shiftRight_eq_div_pow, and255_eq_mod, e16, e8,
    List.cons.injEq, and_true]
  refine ⟨?_, ?_, ?_⟩ <;> omega

/-- A two-byte big-endian payload round-trips through
`read_bew` then `write_bew`. -/
theorem seqnum_bytes (a b : Nat) (ha : a < 256) (hb : b < 256) :
    write_bew (a * 256 + b) 2 = [a, b] := by
  simp only [write_bew]
  norm_num
  constructor <;> omega

/-- `event_slice` on a buffering writer appends the VLQ-stamped slice to
the track buffer and zeroes the relative time. -/
theorem writer_event_slice_run (s : WriterState) (slc buf : List Nat)
    (hbuf : s.track_buffer = some buf) :
    writer_event_slice s slc = { s with
      track_buffer := some (buf ++ (write_varlen s.relative_time.toNat ++ slc)),
      relative_time := 0 } := by
  simp [writer_event_slice, writer_write, hbuf, writer_update_ticks, List.append_assoc]

set_option maxHeartbeats 2000000 in
/-- For meta types in the round-trip class, the writer's `meta_event`
dispatch reduces to a plain `meta_slice` with the original payload. -/
theorem writer_meta_event_ok (s : WriterState) (track mt : Nat) (payload : List Nat)
    (hb : ∀ b ∈ payload, b < 256) (hok : MetaOk mt payload) :
    writer_meta_event s ⟨META_EVENT, track, some mt, payload.length, payload, none⟩ =
      some (writer_meta_slice s mt payload) := by
  obtain ⟨h1, h2, h3, h4, h5, ht, hts, hks, hsn, hmc, hso⟩ := hok
  unfold writer_meta_event
  by_cases e1 : mt = END_OF_TRACK
  · exact absurd e1 h1
  rw [if_neg (show ¬ (⟨META_EVENT, track, some mt, payload.length, payload, none⟩ : MidiEvent).meta_type = some END_OF_TRACK from fun hh => e1 (by simpa using hh))]
  by_cases e2 : mt = TEMPO
  · rw [if_pos (show (⟨META_EVENT, track, some mt, payload.length, payload, none⟩ : MidiEvent).meta_type = some TEMPO by rw [e2])]
    subst e2
    have hl := ht rfl
    cases payload with
    | nil => simp at hl
    | cons b1 p1 =>
      cases p1 with
      | nil => simp at hl
      | cons b2 p2 =>
        cases p2 with
        | nil => simp at hl
        | cons b3 p3 =>
          cases p3 with
          | cons w q => simp at hl
          | nil =>
            have e := tempo_bytes b1 b2 b3 (hb _ (by simp)) (hb _ (by simp)) (hb _ (by simp))
            simp [writer_tempo, e]
  rw [if_neg (show ¬ (⟨META_EVENT, track, some mt, payload.length, payload, none⟩ : MidiEvent).meta_type = some TEMPO from fun hh => e2 (by simpa using hh))]
  by_cases e3 : mt = TIME_SIGNATURE
  · rw [if_pos (show (⟨META_EVENT, track, some mt, payload.length, payload, none⟩ : MidiEvent).meta_type = some TIME_SIGNATURE by rw [e3])]
    subst e3
    have hl := hts rfl
    cases payload with
    | nil => simp at hl
    | cons nn p1 =>
      cases p1 with
      | nil => simp at hl
      | cons dd p2 =>
        cases p2 with
        | nil => simp at hl
        | cons cc p3 =>
          cases p3 with
          | nil => simp at hl
          | cons bb p4 =>
            cases p4 with
            | cons w q => simp at hl
            | nil =>
              simp [writer_time_signature]
  rw [if_neg (show ¬ (⟨META_EVENT, track, some mt, payload.length, payload, none⟩ : MidiEvent).meta_type = some TIME_SIGNATURE from fun hh => e3 (by simpa using hh))]
  by_cases e4 : mt = KEY_SIGNATURE
  · rw [if_pos (show (⟨META_EVENT, track, some mt, payload.length, payload, none⟩ : MidiEvent).meta_type = some KEY_SIGNATURE by rw [e4])]
    subst e4
    have hl := hks rfl
    cases payload with
    | nil => simp at hl
    | cons sf p1 =>
      cases p1 with
      | nil => simp at hl
      | cons mi p2 =>
        cases p2 with
        | cons w q => simp at hl
        | nil =>
          simp [writer_key_signature]
  rw [if_neg (show ¬ (⟨META_EVENT, track, some mt, payload.length, payload, none⟩ : MidiEvent).meta_type = some KEY_SIGNATURE from fun hh => e4 (by simpa using hh))]
  by_cases e5 : mt = SEQUENCE_NAME
  · rw [if_pos (show (⟨META_EVENT, track, some mt, payload.length, payload, none⟩ : MidiEvent).meta_type = some SEQUENCE_NAME by rw [e5])]
    subst e5
    simp [writer_text_meta]
  rw [if_neg (show ¬ (⟨META_EVENT, track, some mt, payload.length, payload, none⟩ : MidiEvent).meta_type = some SEQUENCE_NAME from fun hh => e5 (by simpa using hh))]
  by_cases e6 : mt = PROGRAM_NAME
  · exact absurd e6 h3
  rw [if_neg (show ¬ (⟨META_EVENT, track, some mt, payload.length, payload, none⟩ : MidiEvent).meta_type = some PROGRAM_NAME from fun hh => e6 (by simpa using hh))]
  by_cases e7 : mt = INSTRUMENT_NAME
  · rw [if_pos (show (⟨META_EVENT, track, some mt, payload.length, payload, none⟩ : MidiEvent).meta_type = some INSTRUMENT_NAME by rw [e7])]
    subst e7
    simp [writer_text_meta]
  rw [if_neg (show ¬ (⟨META_EVENT, track, some mt, payload.length, payload, none⟩ : MidiEvent).meta_type = some INSTRUMENT_NAME from fun hh => e7 (by simpa using hh))]
  by_cases e8 : mt = TEXT
  · rw [if_pos (show (⟨META_EVENT, track, some mt, payload.length, payload, none⟩ : MidiEvent).meta_type = some TEXT by rw [e8])]
    subst e8
    simp [writer_text_meta]
  rw [if_neg (show ¬ (⟨META_EVENT, track, some mt, payload.length, payload, none⟩ : MidiEvent).meta_type = some TEXT from fun hh => e8 (by simpa using hh))]
  by_cases e9 : mt = COPYRIGHT
  · rw [if_pos (show (⟨META_EVENT, track, some mt, payload.length, payload, none⟩ : MidiEvent).meta_type = some COPYRIGHT by rw [e9])]
    subst e9
    simp [writer_text_meta]
  rw [if_neg (show ¬ (⟨META_EVENT, track, some mt, payload.length, payload, none⟩ : MidiEvent).meta_type = some COPYRIGHT from fun hh => e9 (by simpa using hh))]
  by_cases e10 : mt = SEQUENCE_NUMBER
  · rw [if_pos (show (⟨META_EVENT, track, some mt, payload.length, payload, none⟩ : MidiEvent).meta_type = some SEQUENCE_NUMBER by rw [e10])]
    subst e10
    have hl := hsn rfl
    cases payload with
    | nil => simp at hl
    | cons a p1 =>
      cases p1 with
      | nil => simp at hl
      | cons b p2 =>
        cases p2 with
        | cons w q => simp at hl
        | nil =>
          have e := seqnum_bytes a b (hb _ (by simp)) (hb _ (by simp))
          simp [read_bew, writer_sequence_number, e]
  rw [if_neg (show ¬ (⟨META_EVENT, track, some mt, payload.length, payload, none⟩ : MidiEvent).meta_type = some SEQUENCE_NUMBER from fun hh => e10 (by simpa using hh))]
  by_cases e11 : mt = LYRIC
  · rw [if_pos (show (⟨META_EVENT, track, some mt, payload.length, payload, none⟩ : MidiEvent).meta_type = some LYRIC by rw [e11])]
    subst e11
    simp [writer_text_meta]
  rw [if_neg (show ¬ (⟨META_EVENT, track, some mt, payload.length, payload, none⟩ : MidiEvent).meta_type = some LYRIC from fun hh => e11 (by simpa using hh))]
  by_cases e12 : mt = MARKER
  · rw [if_pos (show (⟨META_EVENT, track, some mt, payload.length, payload, none⟩ : MidiEvent).meta_type = some MARKER by rw [e12])]
    subst e12
    simp [writer_text_meta]
  rw [if_neg (show ¬ (⟨META_EVENT, track, some mt, payload.length, payload, none⟩ : MidiEvent).meta_type = some MARKER from fun hh => e12 (by simpa using hh))]
  by_cases e13 : mt = CUEPOINT
  · rw [if_pos (show (⟨META_EVENT, track, some mt, payload.length, payload, none⟩ : MidiEvent).meta_type = some CUEPOINT by rw [e13])]
    subst e13
    simp [writer_text_meta]
  rw [if_neg (show ¬ (⟨META_EVENT, track, some mt, payload.length, payload, none⟩ : MidiEvent).meta_type = some CUEPOINT from fun hh => e13 (by simpa using hh))]
  by_cases e14 : mt = DEVICE_NAME
  · exact absurd e14 h4
  rw [if_neg (show ¬ (⟨META_EVENT, track, some mt, payload.length, payload, none⟩ : MidiEvent).meta_type = some DEVICE_NAME from fun hh => e14 (by simpa using hh))]
  by_cases e15 : mt = MIDI_CH_PREFIX
  · rw [if_pos (show (⟨META_EVENT, track, some mt, payload.length, payload, none⟩ : MidiEvent).meta_type = some MIDI_CH_PREFIX by rw [e15])]
    subst e15
    have hl := hmc rfl
    cases payload with
    | nil => simp at hl
    | cons c p1 =>
      cases p1 with
      | cons w q => simp at hl
      | nil =>
        simp [read_bew, writer_midi_ch_pfx]
  rw [if_neg (show ¬ (⟨META_EVENT, track, some mt, payload.length, payload, none⟩ : MidiEvent).meta_type = some MIDI_CH_PREFIX from fun hh => e15 (by simpa using hh))]
  by_cases e16 : mt = MIDI_PORT
  · exact absurd e16 h2
  rw [if_neg (show ¬ (⟨META_EVENT, track, some mt, payload.length, payload, none⟩ : MidiEvent).meta_type = some MIDI_PORT from fun hh => e16 (by simpa using hh))]
  by_cases e17 : mt = SMTP_OFFSET
  · rw [if_pos (show (⟨META_EVENT, track, some mt, payload.length, payload, none⟩ : MidiEvent).meta_type = some SMTP_OFFSET by rw [e17])]
    subst e17
    have hl := hso rfl
    cases payload with
    | nil => simp at hl
    | cons v1 p1 =>
      cases p1 with
      | nil => simp at hl
      | cons v2 p2 =>
        cases p2 with
        | nil => simp at hl
        | cons v3 p3 =>
          cases p3 with
          | nil => simp at hl
          | cons v4 p4 =>
            cases p4 with
            | nil => simp at hl
            | cons v5 p5 =>
              cases p5 with
              | cons w q => simp at hl
              | nil =>
                simp [writer_smtp_offset]
  rw [if_neg (show ¬ (⟨META_EVENT, track, some mt, payload.length, payload, none⟩ : MidiEvent).meta_type = some SMTP_OFFSET from fun hh => e17 (by simpa using hh))]
  by_cases e18 : mt = SEQUENCER_SPECIFIC
  · exact absurd e18 h5
  rw [if_neg (show ¬ (⟨META_EVENT, track, some mt, payload.length, payload, none⟩ : MidiEvent).meta_type = some SEQUENCER_SPECIFIC from fun hh => e18 (by simpa using hh))]
  simp [writer_text_meta]

/-- Each round-trip event's callback makes the writer emit exactly the
event's wire bytes as one `event_slice`. -/
theorem writer_handle_evt (s : WriterState) (k : Nat) (e : TrackEvt) (hv : ValidEvt e) :
    writer_handle s (evtMsg k e) = some (writer_event_slice s (evtBytes e)) := by
  cases e with
  | noteOff ch n v =>
    simp [writer_handle, evtMsg, base_channel_message_event, NOTE_OFF, NOTE_ON,
      writer_chan_call, writer_note_off, evtBytes]
  | noteOn ch n v =>
    obtain ⟨hch, hn, hvv, hv0⟩ := hv
    simp [writer_handle, evtMsg, base_channel_message_event, NOTE_ON, hv0,
      writer_chan_call, writer_note_on, evtBytes]
  | ctrl ch c v =>
    simp [writer_handle, evtMsg, base_channel_message_event, CONTROLLER_CHANGE,
      NOTE_ON, NOTE_OFF, POLYPHONIC_PRESSURE,
      writer_chan_call, writer_controller_change, evtBytes]
  | prog ch p =>
    simp [writer_handle, evtMsg, base_channel_message_event, PROGRAM_CHANGE,
      NOTE_ON, NOTE_OFF, POLYPHONIC_PRESSURE, CONTROLLER_CHANGE,
      writer_chan_call, writer_program_change, evtBytes]
  | bend ch d1 d2 =>
    obtain ⟨hch, h1, h2, he⟩ := hv
    have ehi := bend_hi d1 d2 h1 h2
    have elo := bend_lo d1 d2 h1 h2 he
    simp [writer_handle, evtMsg, base_channel_message_event, PITCH_BEND,
      NOTE_ON, NOTE_OFF, POLYPHONIC_PRESSURE, CONTROLLER_CHANGE, PROGRAM_CHANGE,
      CHANNEL_PRESSURE, writer_chan_call, writer_pitch_bend, evtBytes, ehi, elo]
  | metaEvt mt payload =>
    obtain ⟨hmt, hbytes, hlen, hok⟩ := hv
    have h := writer_meta_event_ok s k mt payload hbytes hok
    simp only [writer_handle, evtMsg]
    rw [h]
    simp [writer_meta_slice, evtBytes]

/-- One delta/event pair's callbacks append exactly `sliceBytes` to the
track buffer. -/
theorem writer_slice_run (s : WriterState) (k d : Nat) (e : TrackEvt) (buf : List Nat)
    (hbuf : s.track_buffer = some buf) (hrel : s.relative_time = 0) (hv : ValidEvt e) :
    writer_run s (sliceMsgs k (d, e)) = some
      { s with
        track_buffer := some (buf ++ sliceBytes d e),
        absolute_time := s.absolute_time + d,
        relative_time := 0 } := by
  by_cases h : d > 0
  · simp only [sliceMsgs, if_pos h, List.singleton_append]
    simp only [writer_run,
      show writer_handle s (HMsg.update_ticks d) = some (writer_update_ticks s d true) from
        rfl]
    rw [writer_handle_evt _ k e hv]
    rw [writer_event_slice_run _ _ buf (by simp [writer_update_ticks, hbuf])]
    simp [writer_update_ticks, sliceBytes, List.append_assoc]
  · have hd0 : d = 0 := by omega
    subst hd0
    simp only [sliceMsgs, if_neg h, List.nil_append]
    simp only [writer_run]
    rw [writer_handle_evt _ k e hv]
    rw [writer_event_slice_run _ _ buf hbuf]
    simp [hrel, sliceBytes, List.append_assoc]

/-- The event list's callbacks append the concatenated slices to the
track buffer. -/
theorem writer_events_run (evts : List (Nat × TrackEvt)) :
    ∀ (k : Nat) (s : WriterState) (buf : List Nat),
    s.track_buffer = some buf → s.relative_time = 0 →
    (∀ de ∈ evts, de.1 < 2 ^ 28 ∧ ValidEvt de.2) →
    writer_run s ((evts.map (sliceMsgs k)).flatten) = some
      { s with
        track_buffer := some (buf ++ (evts.map fun de => sliceBytes de.1 de.2).flatten),
        absolute_time := s.absolute_time + (evts.map Prod.fst).sum,
        relative_time := 0 } := by
  induction evts with
  | nil =>
    intro k s buf hbuf hrel _
    simp only [List.map_nil, List.flatten_nil, writer_run, List.append_nil,
      List.sum_nil, Nat.add_zero]
    rw [← hbuf, ← hrel]
  | cons de rest ih =>
    intro k s buf hbuf hrel hval
    obtain ⟨d, e⟩ := de
    simp only [List.map_cons, List.flatten_cons]
    rw [writer_run_append]
    rw [writer_slice_run s k d e buf hbuf hrel (hval (d, e) (List.mem_cons_self _ _)).2]
    change writer_run _ (List.map (sliceMsgs k) rest).flatten = _
    rw [ih k _ (buf ++ sliceBytes d e) rfl rfl
      (fun x hx => hval x (List.mem_cons_of_mem _ hx))]
    simp [List.append_assoc, Nat.add_assoc]

/-- The end-of-track meta callback flushes the track buffer as a complete
`MTrk` chunk. -/
theorem writer_handle_eot (w : WriterState) (tk : Nat) (buf2 : List Nat)
    (hb : w.track_buffer = some buf2) :
    writer_handle w (HMsg.meta_event ⟨META_EVENT, tk, some END_OF_TRACK, 0, [], none⟩) =
      some { w with
        track_buffer := none,
        current_track := none,
        out := w.out ++ (TRACK_HEADER ++
          write_bew (buf2.length +
            (write_varlen w.relative_time.toNat ++ [META_EVENT, END_OF_TRACK, 0]).length) 4 ++
          buf2 ++
          (write_varlen w.relative_time.toNat ++ [META_EVENT, END_OF_TRACK, 0])) } := by
  simp only [writer_handle]
  unfold writer_meta_event
  rw [if_pos (show (⟨META_EVENT, tk, some END_OF_TRACK, 0, [], none⟩ :
    MidiEvent).meta_type = some END_OF_TRACK from rfl)]
  simp only [writer_end_of_track, hb]
  simp [writer_write, List.append_assoc]

/-- One whole track's callbacks append exactly its serialized chunk to the
writer's output. -/
theorem writer_track_run (t : TrackSpec) (k : Nat) (s : WriterState)
    (hbuf : s.track_buffer = none) (hval : ValidTrack t) :
    writer_run s (trackMsgs k t) = some
      { s with
        out := s.out ++ chunkBytes t,
        current_track := none,
        absolute_time := (t.events.map Prod.fst).sum + t.eot_delta,
        relative_time := (t.eot_delta : Int) } := by
  obtain ⟨hevts, heot, hb32⟩ := hval
  simp only [trackMsgs, List.append_assoc, List.cons_append, List.nil_append]
  simp only [writer_run,
    show ∀ w, writer_handle w HMsg.reset_ticks = some (writer_reset_ticks w) from
      fun _ => rfl,
    show ∀ w, writer_handle w (HMsg.start_of_track k) =
      some (writer_start_of_track w (some k)) from fun _ => rfl]
  rw [writer_run_append]
  rw [writer_events_run t.events k _ []
    (by simp [writer_start_of_track, writer_reset_ticks])
    (by simp [writer_start_of_track, writer_reset_ticks]) hevts]
  change writer_run _ _ = _
  by_cases h : t.eot_delta > 0
  · simp only [if_pos h, List.cons_append, List.nil_append]
    simp only [writer_run,
      show ∀ w, writer_handle w (HMsg.update_ticks t.eot_delta) =
        some (writer_update_ticks w t.eot_delta true) from fun _ => rfl]
    rw [writer_handle_eot _ k ((t.events.map fun de => sliceBytes de.1 de.2).flatten) (by simp [writer_update_ticks])]
    simp only [writer_run]
    simp [writer_update_ticks, writer_start_of_track, writer_reset_ticks, hbuf,
      chunkBytes, trackBody, List.append_assoc]
  · have h0 : t.eot_delta = 0 := by omega
    simp only [if_neg h, List.nil_append]
    simp only [writer_run]
    rw [writer_handle_eot _ k ((t.events.map fun de => sliceBytes de.1 de.2).flatten) (by simp)]
    simp only [writer_run]
    simp [writer_start_of_track, writer_reset_ticks, h0, hbuf,
      chunkBytes, trackBody, List.append_assoc]

/-- The chunk-per-track fold: all tracks' callbacks append the
concatenated chunks to the output. -/
theorem writer_tracks_run (ts : List TrackSpec) :
    ∀ (k : Nat) (s : WriterState),
    s.track_buffer = none →
    (∀ t ∈ ts, ValidTrack t) →
    ∃ a r c, writer_run s (((ts.enumFrom k).map fun it => trackMsgs it.1 it.2).flatten) =
      some { s with
        out := s.out ++ (ts.map chunkBytes).flatten,
        track_buffer := none,
        absolute_time := a,
        relative_time := r,
        current_track := c } := by
  induction ts with
  | nil =>
    intro k s hbuf _
    refine ⟨s.absolute_time, s.relative_time, s.current_track, ?_⟩
    simp only [List.enumFrom_nil, List.map_nil, List.flatten_nil, writer_run,
      List.append_nil]
    rw [← hbuf]
  | cons t ts ih =>
    intro k s hbuf hval
    simp only [List.enumFrom_cons, List.map_cons, List.flatten_cons]
    rw [writer_run_append]
    rw [writer_track_run t k s hbuf (hval t (List.mem_cons_self _ _))]
    obtain ⟨a, r, c, h⟩ := ih (k + 1)
      { s with
        out := s.out ++ chunkBytes t,
        current_track := none,
        absolute_time := (t.events.map Prod.fst).sum + t.eot_delta,
        relative_time := (t.eot_delta : Int) }
      hbuf (fun x hx => hval x (List.mem_cons_of_mem _ hx))
    refine ⟨a, r, c, ?_⟩
    change writer_run _ _ = _
    rw [h]
    simp [List.append_assoc]

/-- Replaying the callback trace of a valid `FileSpec` through the writer
reproduces the serialized file bytes exactly. -/
theorem writer_file_run (f : FileSpec) (hv : ValidFile f) :
    ∃ w, writer_run {} (fileMsgs f) = some w ∧ w.out = fileBytes f := by
  obtain ⟨hfmt, hnum, hdiv, h0, hlen, hval⟩ := hv
  have hmask : f.division &&& 32767 = f.division := by
    rw [and32767_eq_mod]
    omega
  obtain ⟨a, r, c, h⟩ := writer_tracks_run f.tracks 0
    { out := FILE_HEADER ++ write_bew 6 4 ++ write_bew f.format 2 ++
        write_bew f.num_tracks 2 ++ write_bew f.division 2,
      track_buffer := none }
    rfl hval
  refine ⟨{ out := fileBytes f,
            track_buffer := none,
            absolute_time := a,
            relative_time := r,
            current_track := none }, ?_, rfl⟩
  simp only [fileMsgs, List.append_assoc, List.cons_append, List.nil_append]
  simp only [writer_run,
    show writer_handle {} (HMsg.header f.format f.num_tracks true f.division 0xE7 0x28) =
      some (writer_header {} f.format f.num_tracks f.division true 0xE7 0x28) from rfl]
  have hs1 : writer_header {} f.format f.num_tracks f.division true 0xE7 0x28 =
      { out := FILE_HEADER ++ write_bew 6 4 ++ write_bew f.format 2 ++
          write_bew f.num_tracks 2 ++ write_bew f.division 2,
        track_buffer := none } := by
    simp [writer_header, writer_write, hmask, List.append_assoc]
  rw [hs1]
  rw [writer_run_append]
  rw [show List.enum f.tracks = List.enumFrom 0 f.tracks from rfl]
  rw [h]
  simp only [writer_run,
    show ∀ w, writer_handle w HMsg.eof = some { w with current_track := none } from
      fun _ => rfl]
  simp [fileBytes, List.append_assoc]

/-- C1 (amended): for files in the validated round-trip class — note-off,
note-on (nonzero velocity), controller-change, program-change and
pitch-bend (even high data byte) events with explicit status bytes, no
`0xA0`/`0xD0` pressure events, no sysex/escape events, meta events outside
the writer's broken types with standard payload lengths for the typed
metas, minimal VLQs and a 6-byte metrical header — parsing with
`MidiFileReader` and replaying the callback stream through
`MidiFileWriter` reproduces the input bytes exactly. -/
theorem round_trip_preserved (f : FileSpec) (hv : ValidFile f) :
    writer_out (writer_run {} (traceOf (parse_file true (fileBytes f)))) = fileBytes f := by
  obtain ⟨ps2, hp, ht⟩ := parse_file_msgs f true hv
  obtain ⟨w, hw, hout⟩ := writer_file_run f hv
  rw [hp]
  simp only [traceOf]
  rw [ht, hw]
  simp only [writer_out]
  exact hout

/-- Witness: a one-track file with a single full-velocity note-on
round-trips byte-identically. -/
theorem round_trip_preserved_witness :
    ValidFile ⟨0, 1, 96, [⟨[(0, TrackEvt.noteOn 0 60 64)], 0⟩]⟩ ∧
    writer_out (writer_run {} (traceOf (parse_file true
      (fileBytes ⟨0, 1, 96, [⟨[(0, TrackEvt.noteOn 0 60 64)], 0⟩]⟩)))) =
      fileBytes ⟨0, 1, 96, [⟨[(0, TrackEvt.noteOn 0 60 64)], 0⟩]⟩ := by
  have hv : ValidFile ⟨0, 1, 96, [⟨[(0, TrackEvt.noteOn 0 60 64)], 0⟩]⟩ := by
    refine ⟨by norm_num, by norm_num, by norm_num, fun _ => by norm_num, by norm_num, ?_⟩
    intro t htt
    simp only [List.mem_singleton] at htt
    subst htt
    refine ⟨?_, by norm_num, by decide⟩
    intro de hde
    simp only [List.mem_singleton] at hde
    subst hde
    exact ⟨by norm_num, by norm_num, by norm_num, by norm_num, by norm_num⟩
  exact ⟨hv, round_trip_preserved _ hv⟩

/-- C1 counterexample to the literal claim: a strict-accepted file whose
track holds a velocity-0 note-on does not round-trip byte-identically
(the handler layer converts it to a note-off with velocity 0x40). -/
theorem round_trip_counterexample :
    writer_out (writer_run {} (traceOf (parse_file true c1file))) ≠ c1file := by decide

end Miditk
